import Mathlib

/-!
# Pincaster journal (`src/db_log.c`): embedding and verification

The journal keeps one `DBLog` record (file name, descriptor, staging buffer,
two thresholds) and talks to one file.  The embedding below passes that record,
the file and the observable effects (system calls, handler calls) around in an
explicit `State`.

Conventions of the embedding.

* A byte is a natural number (character codes are written in decimal:
  space is 32, colon is 58).  No operation below depends on a byte being
  smaller than 256.
* The C data model is LP64: `int` has 32 bits, `long`, `size_t` and `ssize_t`
  have 64 bits.
* `db_log.h` is not part of the sources at hand, so its constants (the two
  record cookies and the two size limits) and the build switch
  `HAVE_FDATASYNC` are fields of `Config`.
* What the environment decides (whether an allocation succeeds, what the
  next `write(2)` does, what an uninitialised array holds) is an explicit
  input: `Env` for the immutable part, `State.writes` for the write outcomes.
* Every branch of the source is present.  Where the source dereferences a
  NULL staging buffer the result is `none` (undefined behaviour); `_exit(1)`
  is the outcome `Outcome.exit`.
* `evbuffer_add`, `evbuffer_add_printf`, `lseek`, `ftruncate`, `fsync`,
  `fdatasync` and `close` are taken to succeed: the source never looks at
  what they return (or, for the `lseek`/`ftruncate` pair, does nothing with it).
-/

namespace Pincaster

/-- Constants of `db_log.h` and of the build. -/
structure Config where
  DB_LOG_RECORD_COOKIE_HEAD : List Nat
  DB_LOG_RECORD_COOKIE_TAIL : List Nat
  DB_LOG_MAX_URI_LEN : Nat
  DB_LOG_MAX_BODY_LEN : Nat
  DEFAULT_JOURNAL_BUFFER_SIZE : Nat
  DEFAULT_FSYNC_PERIOD : Int
  HAVE_FDATASYNC : Bool

/-- Values of `errno` the journal distinguishes. -/
inductive Errno where
  | EINTR
  | EAGAIN
  | EWOULDBLOCK
  | other (code : Nat)
  deriving DecidableEq, Repr

/-- What one call of `write(2)` on the journal descriptor does: take at most
`n` of the bytes offered, or fail with an error number. -/
inductive WriteOutcome where
  | accept (n : Nat)
  | fail (e : Errno)
  deriving DecidableEq, Repr

/-- Observable effects, in the order they happen. -/
inductive Event where
  | write (data : List Nat)
  | write_failed (e : Errno)
  | usleep (usec : Nat)
  | fdatasync
  | fsync
  | close
  | open_call (path : List Nat) (result : Int)
  | fake_request (verb : Int) (uri : List Nat) (body : Option (List Nat)) (body_len : Nat)
  | puts_replaying
  | printf_replayed (counter : Nat)
  | puts_corrupted
  deriving DecidableEq, Repr

/-- Decisions of the environment that do not change over a run. -/
structure Env where
  /-- whether `malloc(n)` returns a block -/
  malloc_ok : Nat → Bool
  /-- whether `evbuffer_pullup` returns a pointer -/
  pullup_ok : Bool
  /-- whether `evbuffer_new` returns a buffer -/
  evbuffer_new_ok : Bool
  /-- what `open` returns: a descriptor, or -1 -/
  open_result : Int
  /-- content of the uninitialised array `buf_number`, by index -/
  stack : Nat → Nat

/-- The journal record `app_context.db_log`, the file behind its descriptor and
the process environment. -/
structure State where
  db_log_file_name : Option (List Nat)
  db_log_fd : Int
  log_buffer : Option (List Nat)
  journal_buffer_size : Nat
  fsync_period : Int
  /-- content of the journal file -/
  file : List Nat
  /-- file offset of the descriptor -/
  pos : Nat
  errno : Errno
  /-- outcomes of the coming `write(2)` calls; when exhausted, a write takes everything -/
  writes : List WriteOutcome
  trace : List Event
  deriving DecidableEq, Repr

/-! ## C library -/

/-- The string a `char *` designates: the bytes before the first NUL. -/
def cstr (p : List Nat) : List Nat := p.takeWhile (fun c => c != 0)

/-- C `strlen`. -/
def strlen (p : List Nat) : Nat := (cstr p).length

/-- Lowercase hexadecimal digit of a value below 16. -/
def hexDigit (d : Nat) : Nat := if d < 10 then 48 + d else 87 + d

/-- Lowercase hexadecimal digits of `n`, most significant first, in front of
`acc`; `fuel` bounds the number of digits. -/
def hexAux : Nat → Nat → List Nat → List Nat
  | 0, _, acc => acc
  | fuel + 1, n, acc =>
    if n < 16 then hexDigit n :: acc
    else hexAux fuel (n / 16) (hexDigit (n % 16) :: acc)

/-- Lowercase hexadecimal text of a 64-bit unsigned value (at most 16 digits). -/
def hex (n : Nat) : List Nat := hexAux 16 n []

/-- The conversion `%x` of `printf` applied to an `int`: the argument is read as
`unsigned int`. -/
def fmt_x (v : Int) : List Nat := hex (v % 4294967296).toNat

/-- The conversion `%zx` of `printf` applied to a `size_t`. -/
def fmt_zx (n : Nat) : List Nat := hex (n % 18446744073709551616)

/-- C `isspace` in the "C" locale. -/
def isspace (c : Nat) : Bool := c == 32 || (9 ≤ c && c ≤ 13)

/-- Value of a hexadecimal digit, either case. -/
def hexval (c : Nat) : Option Nat :=
  if 48 ≤ c ∧ c ≤ 57 then some (c - 48)
  else if 97 ≤ c ∧ c ≤ 102 then some (c - 87)
  else if 65 ≤ c ∧ c ≤ 70 then some (c - 55)
  else none

/-- The longest run of hexadecimal digits at the front of a string: its value
(on top of `acc`) and its length (on top of `k`). -/
def hexrun : List Nat → Nat → Nat → Nat × Nat
  | [], acc, k => (acc, k)
  | c :: cs, acc, k =>
    match hexval c with
    | some d => hexrun cs (16 * acc + d) (k + 1)
    | none => (acc, k)

/-- The part `strtol` and `strtoul` share for base 16: white space, an optional
sign, an optional `0x` (taken only when a digit follows), digits.  Returns the
sign, the magnitude and the offset of `endptr` from the start, which is 0 when
there is no digit to convert. -/
def strto16 (s : List Nat) : Bool × Nat × Nat :=
  let ws := s.takeWhile isspace
  let s1 := s.dropWhile isspace
  let sign : Bool × List Nat × Nat :=
    match s1 with
    | c :: r =>
      if c = 45 then (true, r, 1)
      else if c = 43 then (false, r, 1)
      else (false, s1, 0)
    | [] => (false, s1, 0)
  let s2 := sign.2.1
  let pre : List Nat × Nat :=
    match s2 with
    | z :: x :: d :: r =>
      if z = 48 ∧ (x = 120 ∨ x = 88) ∧ (hexval d).isSome then (d :: r, 2) else (s2, 0)
    | _ => (s2, 0)
  let run := hexrun pre.1 0 0
  if run.2 = 0 then (false, 0, 0)
  else (sign.1, run.1, ws.length + sign.2.2 + pre.2 + run.2)

/-- C `strtol(s, &endptr, 16)`: the value, clamped to `long`, and `endptr - s`. -/
def strtol16 (s : List Nat) : Int × Nat :=
  let r := strto16 s
  let v : Int := if r.1 then -(r.2.1 : Int) else (r.2.1 : Int)
  (max (-9223372036854775808) (min v 9223372036854775807), r.2.2)

/-- C `strtoul(s, &endptr, 16)`: the value as `unsigned long` (clamped when too
large, negated modulo 2^64 after a minus sign), and `endptr - s`. -/
def strtoul16 (s : List Nat) : Nat × Nat :=
  let r := strto16 s
  let v : Nat :=
    if r.2.1 > 18446744073709551615 then 18446744073709551615
    else if r.1 then (18446744073709551616 - r.2.1) % 18446744073709551616
    else r.2.1
  (v, r.2.2)

/-- The cast `(int)` of a `long`. -/
def int_of_long (v : Int) : Int := (v + 2147483648) % 4294967296 - 2147483648

/-- The cast `(ssize_t)` of a `size_t`. -/
def ssize_of_size (n : Nat) : Int :=
  if n < 9223372036854775808 then (n : Int) else (n : Int) - 18446744073709551616

/-- C `memcmp` on the first `n` bytes: 0 when they agree, else the difference of
the first pair that differs. -/
def memcmp : List Nat → List Nat → Nat → Int
  | _, _, 0 => 0
  | a :: as, b :: bs, n + 1 => if a = b then memcmp as bs n else (a : Int) - (b : Int)
  | _, _, _ + 1 => 0

/-! ## The file behind the descriptor -/

/-- Content of a file after `data` is written at offset `pos`: a write of no
bytes changes nothing, and a hole before `pos` reads as zeros. -/
def file_write (file : List Nat) (pos : Nat) (data : List Nat) : List Nat :=
  if data = [] then file
  else
    file.take pos ++ List.replicate (pos - file.length) 0 ++ data ++ file.drop (pos + data.length)

/-- Content of a file after `ftruncate` to `len`. -/
def file_truncate (file : List Nat) (len : Nat) : List Nat :=
  file.take len ++ List.replicate (len - file.length) 0

/-- Modelled from the spec: `safe_read` of `utils.c`, which is not among the
sources.  It reads until `count` bytes have arrived or the file ends, so it
returns fewer than `count` bytes only at the end of the file ("any short read
at any step is Corrupt", "a zero-byte read means EOF").  Returns the bytes read;
the offset advances by their number.  A `read(2)` that fails is not part of the
model. -/
def safe_read (count : Nat) (s : State) : List Nat × State :=
  let data := (s.file.drop s.pos).take count
  (data, { s with pos := s.pos + data.length })

/-- The call `lseek(fd, off, SEEK_SET)`. -/
def lseek_set (off : Nat) (s : State) : State := { s with pos := off }

/-- The call `ftruncate(fd, len)`. -/
def ftruncate (len : Nat) (s : State) : State := { s with file := file_truncate s.file len }

/-- Recording of one effect. -/
def emit (e : Event) (s : State) : State := { s with trace := s.trace ++ [e] }

/-- Call `evbuffer_write(buf, fd)` of libevent on the staging buffer: one
`write(2)` offering the whole buffer; the bytes the system took are drained from
the buffer and their number is returned, or -1 with `errno` set. -/
def evbuffer_write (buf : List Nat) (s : State) : Int × State :=
  let out : WriteOutcome :=
    match s.writes with
    | [] => WriteOutcome.accept buf.length
    | o :: _ => o
  let s0 := { s with writes := s.writes.tail }
  match out with
  | WriteOutcome.fail e => (-1, emit (Event.write_failed e) { s0 with errno := e })
  | WriteOutcome.accept n =>
    let data := buf.take n
    ((data.length : Int),
      emit (Event.write data)
        { s0 with file := file_write s0.file s0.pos data,
                  pos := s0.pos + data.length,
                  log_buffer := some (buf.drop data.length) })

/-! ## `db_log.c` -/

/-- How control leaves the body of a loop. -/
inductive Ctl where
  | fallthrough
  | continue_
  | return_ (r : Int)
  deriving DecidableEq, Repr

/-- Body of the `do ... while(0)` of `flush_db_log` (lines 133-143). -/
def flush_db_log_body (to_write : Nat) (buf : List Nat) (s : State) : Ctl × State :=
  let w := evbuffer_write buf s
  let written := w.1
  let s1 := w.2
  if written < (to_write : Int) then
    if s1.errno = Errno.EINTR then (Ctl.continue_, s1)
    else if s1.errno = Errno.EAGAIN ∨ s1.errno = Errno.EWOULDBLOCK then
      (Ctl.continue_, emit (Event.usleep (1000000 / 10)) s1)
    else (Ctl.return_ (-1), s1)
  else (Ctl.fallthrough, s1)

/-- Function `flush_db_log(sync)`.  In `do body while(0)` a `continue` jumps to
the test of the controlling expression, which is the constant 0: the loop is
left after one pass whichever way the body ends, unless the body returns. -/
def flush_db_log (cfg : Config) (sync : Bool) (s : State) : Option (Int × State) :=
  if s.db_log_fd = -1 then some (0, s)
  else
    match s.log_buffer with
    | none => none
    | some log_buffer =>
      let to_write := log_buffer.length
      if to_write ≤ 0 then some (0, s)
      else
        let to_write := if sync = false then 0 else to_write
        match flush_db_log_body to_write log_buffer s with
        | (Ctl.return_ r, s1) => some (r, s1)
        | (_, s1) =>
          if sync ≠ false then
            some (0, emit (if cfg.HAVE_FDATASYNC then Event.fdatasync else Event.fsync) s1)
          else some (0, s1)

/-- Lines 92-108 of `add_to_db_log`: the bytes appended to the staging buffer
for one request.  `uri` is the memory `uri` points to and `input_buffer` the
content of the request body. -/
def record_bytes (cfg : Config) (env : Env) (verb : Int) (uri : List Nat)
    (input_buffer : List Nat) : List Nat :=
  let uri_len := strlen uri
  let body_len0 := input_buffer.length
  let body : Option (List Nat) :=
    if body_len0 > 0 then (if env.pullup_ok then some input_buffer else none) else none
  let body_len :=
    match body with
    | some b => if body_len0 > 0 ∧ b[body_len0 - 1]? = some 0 then body_len0 - 1 else body_len0
    | none => body_len0
  cfg.DB_LOG_RECORD_COOKIE_HEAD
    ++ (fmt_x verb ++ [32] ++ fmt_zx uri_len ++ [58] ++ cstr uri ++ [32] ++ fmt_zx body_len ++ [58])
    ++ (match body with
        | some b => b.take body_len
        | none => [])
    ++ cfg.DB_LOG_RECORD_COOKIE_TAIL

/-- Lines 109-114 of `add_to_db_log`: the flush the policy asks for, then
`return 0` whatever the flush returned. -/
def add_to_db_log_policy (cfg : Config) (s : State) : Option (Int × State) :=
  match s.log_buffer with
  | none => none
  | some log_buffer =>
    if s.fsync_period = 0 then
      match flush_db_log cfg true s with
      | none => none
      | some (_, s1) => some (0, s1)
    else if log_buffer.length > s.journal_buffer_size then
      match flush_db_log cfg false s with
      | none => none
      | some (_, s1) => some (0, s1)
    else some (0, s)

/-- Function `add_to_db_log(verb, uri, input_buffer)`. -/
def add_to_db_log (cfg : Config) (env : Env) (verb : Int) (uri : List Nat)
    (input_buffer : List Nat) (s : State) : Option (Int × State) :=
  if s.db_log_fd = -1 then some (0, s)
  else
    let uri_len := strlen uri
    let body_len := input_buffer.length
    if uri_len > cfg.DB_LOG_MAX_URI_LEN ∨ body_len > cfg.DB_LOG_MAX_BODY_LEN then some (-1, s)
    else
      match s.log_buffer with
      | none => none
      | some log_buffer =>
        add_to_db_log_policy cfg
          { s with log_buffer := some (log_buffer ++ record_bytes cfg env verb uri input_buffer) }

/-- Function `init_db_log()`. -/
def init_db_log (cfg : Config) (s : State) : Int × State :=
  (0, { s with
        db_log_file_name := none
        db_log_fd := -1
        log_buffer := none
        journal_buffer_size := cfg.DEFAULT_JOURNAL_BUFFER_SIZE
        fsync_period := cfg.DEFAULT_FSYNC_PERIOD })

/-- Function `close_db_log()`.  The file stays as it is on disk; only the
descriptor goes. -/
def close_db_log (cfg : Config) (s : State) : Option (Int × State) :=
  if s.db_log_fd = -1 then some (0, s)
  else
    match flush_db_log cfg true s with
    | none => none
    | some (_, s1) => some (0, { emit Event.close (emit Event.fsync s1) with db_log_fd := -1 })

/-- Function `free_db_log()`. -/
def free_db_log (cfg : Config) (s : State) : Option State :=
  match close_db_log cfg s with
  | none => none
  | some (_, s1) => some { s1 with db_log_file_name := none, log_buffer := none }

/-- Function `open_db_log()`.  `open` is called without `O_APPEND` and without
`O_TRUNC`: the file keeps its content and the offset of the new descriptor
is 0. -/
def open_db_log (cfg : Config) (env : Env) (s : State) : Option (Int × State) :=
  match s.db_log_file_name with
  | none => some (1, { s with db_log_fd := -1 })
  | some name =>
    let s0 := emit (Event.open_call name env.open_result) s
    if env.open_result = -1 then
      (free_db_log cfg { s0 with db_log_fd := -1 }).map (fun s2 => (-1, s2))
    else
      let s1 := { s0 with db_log_fd := env.open_result, pos := 0 }
      if env.evbuffer_new_ok = false then
        (free_db_log cfg { s1 with log_buffer := none }).map (fun s2 => (-1, s2))
      else some (0, { s1 with log_buffer := some [] })

/-- How a function that may call `_exit` ends. -/
inductive Outcome where
  | ret (code : Int) (s : State)
  | exit (status : Int) (s : State)
  deriving DecidableEq, Repr

/-- The three `for (;;)` loops of `replay_log_record` (lines 183-193, 200-210,
230-242): bytes are read one at a time into `buf_number[pnt]` until the
terminator arrives.  Returns whether the loop was left by `break`; otherwise the
function returns -1.  `fuel` counts the slots left in the array. -/
def read_number (term : Nat) : Nat → Nat → List Nat → State → Bool × List Nat × State
  | 0, _, buf, s => (false, buf, s)
  | fuel + 1, pnt, buf, s =>
    match safe_read 1 s with
    | ([c], s1) =>
      let buf1 := buf.set pnt c
      if c = term then (true, buf1, s1)
      else if pnt + 1 = 50 then (false, buf1, s1)
      else read_number term fuel (pnt + 1) buf1 s1
    | (_, s1) => (false, buf, s1)

/-- Function `replay_log_record(context)`. -/
def replay_log_record (cfg : Config) (env : Env) (s : State) : Outcome :=
  if s.db_log_fd = -1 then Outcome.ret 0 s
  else
    let head_size := cfg.DB_LOG_RECORD_COOKIE_HEAD.length
    let tail_size := cfg.DB_LOG_RECORD_COOKIE_TAIL.length
    let current_offset := s.pos
    let r0 := safe_read head_size s
    let buf_cookie_head := r0.1
    let readnb := buf_cookie_head.length
    if readnb = 0 then Outcome.ret 1 r0.2
    else if readnb ≠ head_size ∨ memcmp buf_cookie_head buf_cookie_head readnb ≠ 0 then
      Outcome.ret (-1) (ftruncate current_offset (lseek_set current_offset r0.2))
    else
      let r1 := read_number 32 50 0 ((List.range 50).map env.stack) r0.2
      if r1.1 = false then Outcome.ret (-1) r1.2.2
      else
        let p1 := strtol16 r1.2.1
        let verb := int_of_long p1.1
        if p1.2 = 0 then Outcome.ret (-1) r1.2.2
        else
          let r2 := read_number 58 50 0 r1.2.1 r1.2.2
          if r2.1 = false then Outcome.ret (-1) r2.2.2
          else
            let p2 := strtoul16 r2.2.1
            let uri_len := p2.1
            if p2.2 = 0 ∨ uri_len ≤ 0 then Outcome.ret (-1) r2.2.2
            else if env.malloc_ok ((uri_len + 1) % 18446744073709551616) = false then
              Outcome.exit 1 r2.2.2
            else
              let r3 := safe_read uri_len r2.2.2
              let uri := r3.1
              if (uri.length : Int) ≠ ssize_of_size uri_len then Outcome.ret (-1) r3.2
              else
                let r4 := safe_read 1 r3.2
                if r4.1 ≠ [32] then Outcome.ret (-1) r4.2
                else
                  let r5 := read_number 58 50 0 (r2.2.1.set 0 32) r4.2
                  if r5.1 = false then Outcome.ret (-1) r5.2.2
                  else
                    let p5 := strtoul16 r5.2.1
                    let body_len := p5.1
                    if p5.2 = 0 then Outcome.ret (-1) r5.2.2
                    else if body_len > 0 ∧
                        env.malloc_ok ((body_len + 1) % 18446744073709551616) = false then
                      Outcome.exit 1 r5.2.2
                    else
                      let r6 : Option (List Nat) × State :=
                        if body_len > 0 then
                          ((some (safe_read body_len r5.2.2).1), (safe_read body_len r5.2.2).2)
                        else (none, r5.2.2)
                      let body := r6.1
                      if body_len > 0 ∧
                          ((body.getD []).length : Int) ≠ ssize_of_size body_len then
                        Outcome.ret (-1) r6.2
                      else
                        let r7 := safe_read tail_size r6.2
                        let buf_cookie_tail := r7.1
                        let readnb := buf_cookie_tail.length
                        if readnb ≠ tail_size ∨
                            memcmp buf_cookie_tail buf_cookie_tail readnb ≠ 0 then
                          Outcome.ret (-1) r7.2
                        else
                          Outcome.ret 0 (emit (Event.fake_request verb uri body body_len) r7.2)

/-- The `while` loop of `replay_log` with its local `counter`, and the lines
after it.  The number of iterations is bounded by `fuel`; `none` means the bound
was reached with the loop still running. -/
def replay_log_loop (cfg : Config) (env : Env) : Nat → Nat → State → Option Outcome
  | 0, _, _ => none
  | fuel + 1, counter, s =>
    match replay_log_record cfg env s with
    | Outcome.exit st s1 => some (Outcome.exit st s1)
    | Outcome.ret res s1 =>
      if res = 0 then replay_log_loop cfg env fuel (counter + 1) s1
      else
        let s2 := emit (Event.printf_replayed counter) s1
        if res < 0 then some (Outcome.ret (-1) (emit Event.puts_corrupted s2))
        else some (Outcome.ret 0 s2)

/-- Function `replay_log(context)`. -/
def replay_log (cfg : Config) (env : Env) (fuel : Nat) (s : State) : Option Outcome :=
  replay_log_loop cfg env fuel 0 (emit Event.puts_replaying s)

/-- A lowercase hexadecimal digit character. -/
def IsLowerHex (c : Nat) : Prop := (48 ≤ c ∧ c ≤ 57) ∨ (97 ≤ c ∧ c ≤ 102)

/-- The state with the file offset moved forward by `n`. -/
def adv (n : Nat) (s : State) : State := { s with pos := s.pos + n }

/-- The part of the file from the current offset on. -/
def remaining (s : State) : List Nat := s.file.drop s.pos

/-! ## The record layout in the words of the specification -/

/-- Spec 4.1: "If `body` is non-empty and its last byte is a NUL terminator, it
is excluded from the persisted length and bytes." -/
def spec_strip_nul (body : List Nat) : List Nat :=
  if body ≠ [] ∧ body.getLast? = some 0 then body.dropLast else body

/-- Spec 4.1, "lowercase-hex": the digits of the number in base 16, as the
library function `Nat.toDigits` gives them. -/
def spec_hex (n : Nat) : List Nat := (Nat.toDigits 16 n).map Char.toNat

/-- Spec 4.1, "Output layout, in order: head marker; lowercase-hex `verb`; a
space; lowercase-hex `len(uri)`; a colon; raw `uri` bytes; a space;
lowercase-hex `len(body)` (after NUL-stripping); a colon; raw `body` bytes (may
be zero-length); tail marker." -/
def spec_layout (head tail : List Nat) (verb : Nat) (uri body : List Nat) : List Nat :=
  head ++ spec_hex verb ++ [32] ++ spec_hex uri.length ++ [58] ++ uri ++ [32]
    ++ spec_hex (spec_strip_nul body).length ++ [58] ++ spec_strip_nul body ++ tail

/-- The layout of the specification for a request as `add_to_db_log` receives
it: the cookies of the configuration, the verb as the unsigned value `%x`
prints, the string `uri` points to, the request body. -/
def spec_encode (cfg : Config) (verb : Int) (uri body : List Nat) : List Nat :=
  spec_layout cfg.DB_LOG_RECORD_COOKIE_HEAD cfg.DB_LOG_RECORD_COOKIE_TAIL
    (verb % 4294967296).toNat (cstr uri) body

/-- A record on disk that persists the body bytes `persisted` as they are: the
layout of the specification after its stripping step. -/
def record_with_body (cfg : Config) (verb : Int) (uri persisted : List Nat) : List Nat :=
  cfg.DB_LOG_RECORD_COOKIE_HEAD ++ spec_hex (verb % 4294967296).toNat ++ [32]
    ++ spec_hex (cstr uri).length ++ [58] ++ cstr uri ++ [32]
    ++ spec_hex persisted.length ++ [58] ++ persisted ++ cfg.DB_LOG_RECORD_COOKIE_TAIL

/-- Whether the next `write(2)` takes all of `len` bytes offered. -/
def next_write_takes_all (s : State) (len : Nat) : Bool :=
  match s.writes with
  | [] => true
  | WriteOutcome.accept n :: _ => decide (len ≤ n)
  | WriteOutcome.fail _ :: _ => false

/-- Whether an effect is a call of `write(2)`, successful or not. -/
def Event.is_write : Event → Bool
  | Event.write _ => true
  | Event.write_failed _ => true
  | _ => false

/-- Whether an effect is a sync of the file (`fdatasync` or `fsync`). -/
def Event.is_sync : Event → Bool
  | Event.fdatasync => true
  | Event.fsync => true
  | _ => false

/-- A request as `add_to_db_log` receives it: the verb, the memory `uri` points
to, the content of the body buffer. -/
structure Request where
  verb : Int
  uri : List Nat
  body : List Nat
  deriving DecidableEq, Repr

/-- A request the journal can take back: the verb is an `int`, the uri is not
empty, uri and body are within the size limits. -/
def Request.well_formed (cfg : Config) (r : Request) : Prop :=
  -2147483648 ≤ r.verb ∧ r.verb < 2147483648 ∧ cstr r.uri ≠ [] ∧
    strlen r.uri ≤ cfg.DB_LOG_MAX_URI_LEN ∧ r.body.length ≤ cfg.DB_LOG_MAX_BODY_LEN

/-- The bytes `add_to_db_log` stages for a sequence of requests, one after the
other. -/
def journal_bytes (cfg : Config) (env : Env) : List Request → List Nat
  | [] => []
  | r :: rs => record_bytes cfg env r.verb r.uri r.body ++ journal_bytes cfg env rs

/-- The handler call that hands a request back: verb, uri, the body without its
terminating NUL (a NULL pointer when nothing is left) and its length. -/
def Request.replayed (r : Request) : Event :=
  Event.fake_request r.verb (cstr r.uri)
    (if spec_strip_nul r.body = [] then none else some (spec_strip_nul r.body))
    (spec_strip_nul r.body).length

/-- The state `s1` is the state `s` with the file offset moved forward, not
beyond the end of the file (or not at all, when it was beyond already). -/
def pos_moved (s s1 : State) : Prop :=
  s1 = { s with pos := s1.pos } ∧ s.pos ≤ s1.pos ∧ s1.pos ≤ max s.pos s.file.length

/-- Whether an effect is a call of the handler. -/
def Event.is_fake_request : Event → Bool
  | Event.fake_request _ _ _ _ => true
  | _ => false

/-- Every way `replay_log_record` can end when started in state `s` on an open
journal: a return of 0 after one handler call, with the offset moved over at
least the two cookies and not beyond the end of the file; a return of 1 or -1
with no effect but a moved offset (and, on one path, the seek back and the
truncation); or `_exit` after no effect but a moved offset. -/
def replay_post (cfg : Config) (s : State) : Outcome → Prop
  | Outcome.ret r s1 => ∃ s0, pos_moved s s0 ∧
      ((r = 0 ∧ (∃ ev, s1 = emit ev s0 ∧ ev.is_fake_request = true) ∧
          s.pos + cfg.DB_LOG_RECORD_COOKIE_HEAD.length + cfg.DB_LOG_RECORD_COOKIE_TAIL.length
            ≤ s0.pos ∧ s.pos < s0.pos ∧ s0.pos ≤ s.file.length) ∨
        ((r = 1 ∨ r = -1) ∧ (s1 = s0 ∨ s1 = ftruncate s.pos (lseek_set s.pos s0))))
  | Outcome.exit _ s1 => pos_moved s s1

/-- The invariant of the journal record: a valid descriptor comes with a file
name and an allocated staging buffer. -/
def handle_invariant (s : State) : Prop :=
  s.db_log_fd ≠ -1 → s.db_log_file_name ≠ none ∧ s.log_buffer ≠ none

/-- One step of a run of the program: the configuration sets the path while the
journal is not open, or one of the functions of `db_log.c` is called and
returns.  What the environment decides may differ from call to call. -/
inductive Step (cfg : Config) : State → State → Prop where
  | configure (s : State) (path : List Nat) :
      s.db_log_fd = -1 → Step cfg s { s with db_log_file_name := some path }
  | open_db_log (env : Env) (s s1 : State) (r : Int) :
      open_db_log cfg env s = some (r, s1) → Step cfg s s1
  | close_db_log (s s1 : State) (r : Int) :
      close_db_log cfg s = some (r, s1) → Step cfg s s1
  | free_db_log (s s1 : State) :
      free_db_log cfg s = some s1 → Step cfg s s1
  | add_to_db_log (env : Env) (verb : Int) (uri body : List Nat) (s s1 : State) (r : Int) :
      add_to_db_log cfg env verb uri body s = some (r, s1) → Step cfg s s1
  | flush_db_log (sync : Bool) (s s1 : State) (r : Int) :
      flush_db_log cfg sync s = some (r, s1) → Step cfg s s1
  | replay_log_record (env : Env) (s s1 : State) (r : Int) :
      replay_log_record cfg env s = Outcome.ret r s1 → Step cfg s s1

/-- The states a run can be in between two calls, starting with `init_db_log`. -/
inductive Reachable (cfg : Config) : State → Prop where
  | init (s0 : State) : Reachable cfg (init_db_log cfg s0).2
  | step (s s1 : State) : Reachable cfg s → Step cfg s s1 → Reachable cfg s1

/-! ## Sample data for the concrete checks -/

/-- A configuration for the concrete checks.  The cookies (`PC>` and `<PC`) and
the limits stand in for the values of `db_log.h`. -/
def sample_cfg : Config :=
  { DB_LOG_RECORD_COOKIE_HEAD := [80, 67, 62]
    DB_LOG_RECORD_COOKIE_TAIL := [60, 80, 67]
    DB_LOG_MAX_URI_LEN := 8
    DB_LOG_MAX_BODY_LEN := 16
    DEFAULT_JOURNAL_BUFFER_SIZE := 64
    DEFAULT_FSYNC_PERIOD := 5
    HAVE_FDATASYNC := true }

/-- An environment in which every allocation succeeds, `open` returns
descriptor 3, and `buf_number` starts out as zeros. -/
def sample_env : Env :=
  { malloc_ok := fun _ => true
    pullup_ok := true
    evbuffer_new_ok := true
    open_result := 3
    stack := fun _ => 0 }

/-- An open journal (`journal.db`, descriptor 3) over the file `file`, at offset
0, with an empty staging buffer and the threshold policy. -/
def sample_state (file : List Nat) : State :=
  { db_log_file_name := some [106, 111, 117, 114, 110, 97, 108, 46, 100, 98]
    db_log_fd := 3
    log_buffer := some []
    journal_buffer_size := 64
    fsync_period := 5
    file := file
    pos := 0
    errno := Errno.other 0
    writes := []
    trace := [] }

/-! ## Facts about the C library model -/

theorem hexDigit_lower (d : Nat) (h : d < 16) : IsLowerHex (hexDigit d) := by
  unfold IsLowerHex hexDigit
  split <;> omega

theorem hexval_hexDigit (d : Nat) (h : d < 16) : hexval (hexDigit d) = some d := by
  unfold hexval hexDigit
  by_cases h10 : d < 10
  · simp only [h10, if_true]
    rw [if_pos (by omega)]
    congr 1
    omega
  · simp only [h10, if_false]
    rw [if_neg (by omega), if_pos (by omega)]
    congr 1
    omega

theorem hexval_none_of_not_digit (c : Nat) (h : c = 32 ∨ c = 58) : hexval c = none := by
  unfold hexval
  rcases h with h | h <;> subst h <;> decide

theorem hexrun_cons_digit (d : Nat) (h : d < 16) (tl : List Nat) (a k : Nat) :
    hexrun (hexDigit d :: tl) a k = hexrun tl (16 * a + d) (k + 1) := by
  simp only [hexrun, hexval_hexDigit d h]

/-- Shape of the output of `hexAux` when the fuel covers all digits. -/
theorem hexAux_spec (fuel n : Nat) (h : n < 16 ^ (fuel + 1)) :
    ∃ ds : List Nat, ds ≠ [] ∧ ds.length ≤ fuel + 1 ∧ (∀ c ∈ ds, IsLowerHex c) ∧
      (∀ acc, hexAux (fuel + 1) n acc = ds ++ acc) ∧
      (∀ tl a k, hexrun (ds ++ tl) a k = hexrun tl (a * 16 ^ ds.length + n) (k + ds.length)) := by
  induction fuel generalizing n with
  | zero =>
    have hn : n < 16 := by simpa using h
    refine ⟨[hexDigit n], by simp, by simp, ?_, ?_, ?_⟩
    · intro c hc
      simp only [List.mem_singleton] at hc
      subst hc
      exact hexDigit_lower n hn
    · intro acc
      simp [hexAux, hn]
    · intro tl a k
      simp only [List.singleton_append, List.length_singleton, pow_one]
      rw [hexrun_cons_digit n hn]
      congr 1
      omega
  | succ fuel ih =>
    by_cases hn : n < 16
    · refine ⟨[hexDigit n], by simp, by simp, ?_, ?_, ?_⟩
      · intro c hc
        simp only [List.mem_singleton] at hc
        subst hc
        exact hexDigit_lower n hn
      · intro acc
        simp [hexAux, hn]
      · intro tl a k
        simp only [List.singleton_append, List.length_singleton, pow_one]
        rw [hexrun_cons_digit n hn]
        congr 1
        omega
    · have hq : n / 16 < 16 ^ (fuel + 1) := by
        rw [Nat.div_lt_iff_lt_mul (by norm_num)]
        calc n < 16 ^ (fuel + 1 + 1) := h
          _ = 16 ^ (fuel + 1) * 16 := by ring
      obtain ⟨ds, hne, hlen, hdig, hacc, hrun⟩ := ih (n / 16) hq
      have hr : n % 16 < 16 := Nat.mod_lt _ (by norm_num)
      refine ⟨ds ++ [hexDigit (n % 16)], by simp, by simp; omega, ?_, ?_, ?_⟩
      · intro c hc
        rcases List.mem_append.1 hc with hc | hc
        · exact hdig c hc
        · simp only [List.mem_singleton] at hc
          subst hc
          exact hexDigit_lower _ hr
      · intro acc
        rw [hexAux, if_neg hn, hacc]
        simp
      · intro tl a k
        rw [List.append_assoc, hrun, List.singleton_append, hexrun_cons_digit _ hr]
        simp only [List.length_append, List.length_singleton]
        congr 1
        have := Nat.div_add_mod n 16
        rw [pow_succ]
        ring_nf
        ring_nf at this
        omega

theorem hex_spec (n : Nat) (h : n < 18446744073709551616) :
    hex n ≠ [] ∧ (hex n).length ≤ 16 ∧ (∀ c ∈ hex n, IsLowerHex c) ∧
      (∀ tl a k, hexrun (hex n ++ tl) a k
        = hexrun tl (a * 16 ^ (hex n).length + n) (k + (hex n).length)) := by
  obtain ⟨ds, hne, hlen, hdig, hacc, hrun⟩ := hexAux_spec 15 n (by norm_num; exact h)
  have hds : hex n = ds := by
    unfold hex
    rw [hacc, List.append_nil]
  rw [hds]
  exact ⟨hne, hlen, hdig, hrun⟩

theorem IsLowerHex.not_space {c : Nat} (h : IsLowerHex c) : isspace c = false := by
  unfold IsLowerHex at h
  unfold isspace
  simp only [Bool.or_eq_false_iff, beq_eq_false_iff_ne, ne_eq, Bool.and_eq_false_iff,
    decide_eq_false_iff_not]
  omega

/-- Parsing the text `printf` produced for a 64-bit value, followed by a
terminator that is no digit, gives the value back and stops at the terminator. -/
theorem strto16_hex (n : Nat) (h : n < 18446744073709551616) (t : Nat) (ht : t = 32 ∨ t = 58)
    (rest : List Nat) :
    strto16 (hex n ++ t :: rest) = (false, n, (hex n).length) := by
  obtain ⟨hne, _, hdig, hrun⟩ := hex_spec n h
  have hrun0 : hexrun (hex n ++ t :: rest) 0 0 = (n, (hex n).length) := by
    rw [hrun]
    simp only [hexrun, hexval_none_of_not_digit t ht, zero_mul, zero_add]
  obtain ⟨c, cs, hcs⟩ := List.exists_cons_of_ne_nil hne
  have hc : IsLowerHex c := hdig c (by rw [hcs]; simp)
  have hlen : (hex n).length ≠ 0 := by rw [hcs]; simp
  have hsp : isspace c = false := hc.not_space
  have h45 : c ≠ 45 := by unfold IsLowerHex at hc; omega
  have h43 : c ≠ 43 := by unfold IsLowerHex at hc; omega
  have hpre : ∀ l : List Nat, l = c :: (cs ++ t :: rest) →
      (match l with
        | z :: x :: d :: r =>
          if z = 48 ∧ (x = 120 ∨ x = 88) ∧ (hexval d).isSome then (d :: r, 2) else (l, 0)
        | _ => (l, 0)) = (l, 0) := by
    intro l hl
    split
    · rename_i z x d r
      have hx : x ≠ 120 ∧ x ≠ 88 := by
        cases cs with
        | nil =>
          simp only [List.nil_append, List.cons.injEq] at hl
          obtain ⟨_, h2, _⟩ := hl
          rcases ht with ht | ht <;> omega
        | cons c2 cs2 =>
          simp only [List.cons_append, List.cons.injEq] at hl
          obtain ⟨_, h2, _⟩ := hl
          have : IsLowerHex c2 := hdig c2 (by rw [hcs]; simp)
          unfold IsLowerHex at this
          omega
      rw [if_neg]
      omega
    · rfl
  unfold strto16
  simp only [hcs, List.cons_append, List.takeWhile_cons, List.dropWhile_cons, hsp,
    Bool.false_eq_true, if_false, h45, h43, List.length_nil]
  rw [hpre _ rfl]
  rw [hcs, List.cons_append] at hrun0
  simp only [hrun0]
  rw [hcs] at hlen
  simp only [hlen, if_false, zero_add, add_zero]

@[simp] theorem adv_zero (s : State) : adv 0 s = s := by
  cases s; simp [adv]

@[simp] theorem adv_adv (m n : Nat) (s : State) : adv m (adv n s) = adv (n + m) s := by
  cases s; simp [adv, Nat.add_assoc]

@[simp] theorem adv_fd (n : Nat) (s : State) : (adv n s).db_log_fd = s.db_log_fd := rfl

@[simp] theorem adv_file (n : Nat) (s : State) : (adv n s).file = s.file := rfl

@[simp] theorem adv_pos (n : Nat) (s : State) : (adv n s).pos = s.pos + n := rfl

theorem remaining_adv (s : State) (data rest : List Nat) (h : remaining s = data ++ rest) :
    remaining (adv data.length s) = rest := by
  unfold remaining at *
  simp only [adv_file, adv_pos]
  rw [← List.drop_drop, h, List.drop_left]

theorem safe_read_exact (s : State) (data rest : List Nat) (h : remaining s = data ++ rest) :
    safe_read data.length s = (data, adv data.length s) := by
  unfold remaining at h
  unfold safe_read adv
  simp only [h, List.take_left]

/-- Reading past what is left of the file returns what is left. -/
theorem safe_read_short (s : State) (n : Nat) (h : (remaining s).length ≤ n) :
    safe_read n s = (remaining s, adv (remaining s).length s) := by
  unfold remaining at *
  unfold safe_read adv
  simp only [List.take_of_length_le h]

theorem set_append_length (pre : List Nat) (o : Nat) (old : List Nat) (c : Nat) :
    (pre ++ o :: old).set pre.length c = pre ++ c :: old := by
  induction pre with
  | nil => rfl
  | cons p ps ih => simp [List.set, ih]

/-- The loop that reads a number field, on a field that fits: the field and its
terminator end up in `buf_number` from `pnt` on, and the file offset is just
behind the terminator. -/
theorem read_number_ok (t : Nat) (ds : List Nat) :
    ∀ (fuel pnt : Nat) (pre old : List Nat) (s : State) (rest : List Nat),
      (∀ c ∈ ds, c ≠ t) → pre.length = pnt → ds.length + 1 ≤ old.length →
      ds.length < fuel → pnt + ds.length < 50 →
      remaining s = ds ++ t :: rest →
      read_number t fuel pnt (pre ++ old) s
        = (true, pre ++ ds ++ t :: old.drop (ds.length + 1), adv (ds.length + 1) s) := by
  induction ds with
  | nil =>
    intro fuel pnt pre old s rest _ hpre hold hfuel _ hrem
    obtain ⟨f, rfl⟩ : ∃ f, fuel = f + 1 := ⟨fuel - 1, by simp at hfuel; omega⟩
    obtain ⟨o, old2, rfl⟩ : ∃ o old2, old = o :: old2 := by
      cases old with
      | nil => simp at hold
      | cons o old2 => exact ⟨o, old2, rfl⟩
    have hr := safe_read_exact s [t] rest (by simpa using hrem)
    simp only [List.length_singleton] at hr
    subst hpre
    simp [read_number, hr, set_append_length]
  | cons d ds ih =>
    intro fuel pnt pre old s rest hne hpre hold hfuel hpnt hrem
    obtain ⟨f, rfl⟩ : ∃ f, fuel = f + 1 := ⟨fuel - 1, by simp at hfuel; omega⟩
    obtain ⟨o, old2, rfl⟩ : ∃ o old2, old = o :: old2 := by
      cases old with
      | nil => simp at hold
      | cons o old2 => exact ⟨o, old2, rfl⟩
    have hr := safe_read_exact s [d] (ds ++ t :: rest) (by simpa using hrem)
    have hrem2 := remaining_adv s [d] (ds ++ t :: rest) (by simpa using hrem)
    simp only [List.length_singleton] at hr hrem2
    have hdt : d ≠ t := hne d (by simp)
    simp only [List.length_cons] at hold hfuel hpnt
    have h50 : ¬ (pnt + 1 = 50) := by omega
    subst hpre
    have hih := ih f (pre.length + 1) (pre ++ [d]) old2 (adv 1 s) rest
      (fun c hc => hne c (by simp [hc])) (by simp) (by simpa using hold) (by omega) (by omega) hrem2
    simp only [read_number, hr, set_append_length, hdt, if_false, h50]
    simp only [List.append_assoc, List.singleton_append] at hih
    rw [hih]
    simp [Nat.add_comm 1]

theorem memcmp_self (a : List Nat) : ∀ n, memcmp a a n = 0 := by
  induction a with
  | nil => intro n; cases n <;> rfl
  | cons x xs ih => intro n; cases n with
    | zero => rfl
    | succ n => simp [memcmp, ih]

theorem strtol16_hex (n : Nat) (h : n < 18446744073709551616) (t : Nat) (ht : t = 32 ∨ t = 58)
    (rest : List Nat) :
    strtol16 (hex n ++ t :: rest) = (min (n : Int) 9223372036854775807, (hex n).length) := by
  unfold strtol16
  rw [strto16_hex n h t ht rest]
  simp only [Bool.false_eq_true, if_false, Prod.mk.injEq, and_true]
  omega

theorem strtoul16_hex (n : Nat) (h : n < 18446744073709551616) (t : Nat) (ht : t = 32 ∨ t = 58)
    (rest : List Nat) :
    strtoul16 (hex n ++ t :: rest) = (n, (hex n).length) := by
  unfold strtoul16
  rw [strto16_hex n h t ht rest]
  have : ¬ n > 18446744073709551615 := by omega
  simp [this]

theorem hex_length_pos (n : Nat) (h : n < 18446744073709551616) : (hex n).length ≠ 0 := by
  have := (hex_spec n h).1
  cases hh : hex n with
  | nil => exact absurd hh this
  | cons c cs => simp

theorem hex_no_term (n : Nat) (h : n < 18446744073709551616) (t : Nat) (ht : t = 32 ∨ t = 58) :
    ∀ c ∈ hex n, c ≠ t := by
  intro c hc
  have := (hex_spec n h).2.2.1 c hc
  unfold IsLowerHex at this
  omega

/-- The frame of a record on disk: cookie, three number fields with their
terminators, the two payloads, cookie. -/
theorem replay_log_record_frame (cfg : Config) (env : Env) (s : State)
    (v : Nat) (u b rest : List Nat)
    (hfd : s.db_log_fd ≠ -1)
    (hhead : cfg.DB_LOG_RECORD_COOKIE_HEAD ≠ [])
    (hv : v < 4294967296)
    (hu0 : u ≠ []) (hu : u.length < 9223372036854775808) (hb : b.length < 9223372036854775808)
    (hmu : env.malloc_ok (u.length + 1) = true)
    (hmb : b ≠ [] → env.malloc_ok (b.length + 1) = true)
    (hrem : remaining s = cfg.DB_LOG_RECORD_COOKIE_HEAD ++ (hex v ++ 32 :: (hex u.length ++ 58 ::
        (u ++ 32 :: (hex b.length ++ 58 :: (b ++ (cfg.DB_LOG_RECORD_COOKIE_TAIL ++ rest))))))) :
    replay_log_record cfg env s
      = Outcome.ret 0 (emit (Event.fake_request (int_of_long v) u (if b = [] then none else some b) b.length)
          (adv (cfg.DB_LOG_RECORD_COOKIE_HEAD.length + ((hex v).length + 1 + ((hex u.length).length + 1 +
            (u.length + 1 + ((hex b.length).length + 1 + (b.length +
              cfg.DB_LOG_RECORD_COOKIE_TAIL.length)))))) s)) := by
  have hv64 : v < 18446744073709551616 := by omega
  have hu64 : u.length < 18446744073709551616 := by omega
  have hb64 : b.length < 18446744073709551616 := by omega
  have hhl : cfg.DB_LOG_RECORD_COOKIE_HEAD.length ≠ 0 := by
    intro h; exact hhead (List.length_eq_zero.1 h)
  -- head cookie
  have r0 := safe_read_exact s _ _ hrem
  have m0 := remaining_adv s _ _ hrem
  set s0 := adv cfg.DB_LOG_RECORD_COOKIE_HEAD.length s with hs0
  -- verb field
  have hbuf0 : ((List.range 50).map env.stack).length = 50 := by simp
  have r1 := read_number_ok 32 (hex v) 50 0 [] ((List.range 50).map env.stack) s0 _
    (hex_no_term v hv64 32 (Or.inl rfl)) rfl (by have := (hex_spec v hv64).2.1; omega)
    (by have := (hex_spec v hv64).2.1; omega) (by have := (hex_spec v hv64).2.1; omega) m0
  have m1 := remaining_adv s0 (hex v ++ [32]) _ (by simpa using m0)
  simp only [List.nil_append, List.length_append, List.length_singleton] at r1 m1
  set s1 := adv ((hex v).length + 1) s0 with hs1
  set buf1 := hex v ++ 32 :: List.drop ((hex v).length + 1) ((List.range 50).map env.stack) with hbuf1
  have hbuf1l : buf1.length = 50 := by
    have := (hex_spec v hv64).2.1
    simp only [hbuf1, List.length_append, List.length_cons, List.length_drop, hbuf0]
    omega
  have p1 := strtol16_hex v hv64 32 (Or.inl rfl) (List.drop ((hex v).length + 1) ((List.range 50).map env.stack))
  -- uri length field
  have r2 := read_number_ok 58 (hex u.length) 50 0 [] buf1 s1 _
    (hex_no_term _ hu64 58 (Or.inr rfl)) rfl (by have := (hex_spec _ hu64).2.1; omega)
    (by have := (hex_spec _ hu64).2.1; omega) (by have := (hex_spec _ hu64).2.1; omega) m1
  have m2 := remaining_adv s1 (hex u.length ++ [58]) _ (by simpa using m1)
  simp only [List.nil_append, List.length_append, List.length_singleton] at r2 m2
  set s2 := adv ((hex u.length).length + 1) s1 with hs2
  set buf2 := hex u.length ++ 58 :: List.drop ((hex u.length).length + 1) buf1 with hbuf2
  have p2 := strtoul16_hex u.length hu64 58 (Or.inr rfl) (List.drop ((hex u.length).length + 1) buf1)
  -- uri
  have r3 := safe_read_exact s2 u _ m2
  have m3 := remaining_adv s2 u _ m2
  set s3 := adv u.length s2 with hs3
  -- separator
  have r4 := safe_read_exact s3 [32] _ (by simpa using m3)
  have m4 := remaining_adv s3 [32] _ (by simpa using m3)
  simp only [List.length_singleton] at r4 m4
  set s4 := adv 1 s3 with hs4
  -- body length field
  have hbuf2l : (buf2.set 0 32).length = 50 := by
    have := (hex_spec _ hu64).2.1
    simp only [hbuf2, List.length_set, List.length_append, List.length_cons, List.length_drop, hbuf1l]
    omega
  have r5 := read_number_ok 58 (hex b.length) 50 0 [] (buf2.set 0 32) s4 _
    (hex_no_term _ hb64 58 (Or.inr rfl)) rfl (by have := (hex_spec _ hb64).2.1; omega)
    (by have := (hex_spec _ hb64).2.1; omega) (by have := (hex_spec _ hb64).2.1; omega) m4
  have m5 := remaining_adv s4 (hex b.length ++ [58]) _ (by simpa using m4)
  simp only [List.nil_append, List.length_append, List.length_singleton] at r5 m5
  set s5 := adv ((hex b.length).length + 1) s4 with hs5
  have p5 := strtoul16_hex b.length hb64 58 (Or.inr rfl)
    (List.drop ((hex b.length).length + 1) (buf2.set 0 32))
  -- body and tail cookie
  have r6 := safe_read_exact s5 b _ m5
  have m6 := remaining_adv s5 b _ m5
  have r7 := safe_read_exact (adv b.length s5) _ _ m6
  have hul0 : u.length ≠ 0 := by
    intro h; exact hu0 (List.length_eq_zero.1 h)
  have hfd' : ¬ s.db_log_fd = -1 := hfd
  have hss_u : ssize_of_size u.length = (u.length : Int) := by
    unfold ssize_of_size; rw [if_pos hu]
  have hss_b : ssize_of_size b.length = (b.length : Int) := by
    unfold ssize_of_size; rw [if_pos hb]
  have hmodu : (u.length + 1) % 18446744073709551616 = u.length + 1 := Nat.mod_eq_of_lt (by omega)
  have hmodb : (b.length + 1) % 18446744073709551616 = b.length + 1 := Nat.mod_eq_of_lt (by omega)
  unfold replay_log_record
  simp only [hfd', if_false, r0, hhl, ne_eq, not_true_eq_false, memcmp_self, or_self, r1,
    Bool.true_eq_false, p1, hex_length_pos v hv64, r2, p2, hex_length_pos _ hu64, false_or,
    Nat.le_zero_eq, hul0, hmodu, hmu, r3, hss_u, r4, r5, p5, hex_length_pos _ hb64, hmodb]
  have hmin : min (v : Int) 9223372036854775807 = (v : Int) := by omega
  have hpos : adv cfg.DB_LOG_RECORD_COOKIE_TAIL.length (adv b.length s5)
      = adv (cfg.DB_LOG_RECORD_COOKIE_HEAD.length + ((hex v).length + 1 + ((hex u.length).length + 1 +
            (u.length + 1 + ((hex b.length).length + 1 + (b.length +
              cfg.DB_LOG_RECORD_COOKIE_TAIL.length)))))) s := by
    simp only [hs5, hs4, hs3, hs2, hs1, hs0, adv_adv]
    congr 1
    omega
  by_cases hb0 : b = []
  · have hbl0 : ¬ (0 < b.length) := by simp [hb0]
    have r7b : safe_read cfg.DB_LOG_RECORD_COOKIE_TAIL.length s5
        = (cfg.DB_LOG_RECORD_COOKIE_TAIL, adv cfg.DB_LOG_RECORD_COOKIE_TAIL.length (adv b.length s5)) := by
      have : adv b.length s5 = s5 := by simp [hb0]
      rw [this] at r7
      rw [r7, this]
    simp only [gt_iff_lt, hbl0, false_and, if_false]
    rw [r7b]
    simp only [ne_eq, not_true_eq_false, memcmp_self, or_self, if_false, hmin, hpos]
    simp [hb0]
  · have hbl0 : 0 < b.length := List.length_pos.2 hb0
    simp only [gt_iff_lt, hbl0, true_and, hmb hb0, if_true, r6, Option.getD_some, hss_b, r7,
      ne_eq, not_true_eq_false, memcmp_self, or_self, if_false, hb0, Bool.true_eq_false, hmin, hpos]

theorem digitChar_toNat (d : Nat) (h : d < 16) : (Nat.digitChar d).toNat = hexDigit d := by
  interval_cases d <;> decide

theorem toDigitsCore_eq_hexAux (f : Nat) :
    ∀ (g n : Nat) (ds : List Char), n < 16 ^ (f + 1) → n < 16 ^ (g + 1) →
      (Nat.toDigitsCore 16 (g + 1) n ds).map Char.toNat = hexAux (f + 1) n (ds.map Char.toNat) := by
  induction f with
  | zero =>
    intro g n ds hf _
    have hn : n < 16 := by simpa using hf
    have h0 : n / 16 = 0 := Nat.div_eq_of_lt hn
    simp [Nat.toDigitsCore, hexAux, hn, h0, Nat.mod_eq_of_lt hn, digitChar_toNat n hn]
  | succ f ih =>
    intro g n ds hf hg
    by_cases hn : n < 16
    · have h0 : n / 16 = 0 := Nat.div_eq_of_lt hn
      simp [Nat.toDigitsCore, hexAux, hn, h0, Nat.mod_eq_of_lt hn, digitChar_toNat n hn]
    · have h0 : ¬ (n / 16 = 0) := by
        intro h
        rcases (Nat.div_eq_zero_iff (by norm_num : 0 < 16)).1 h with h | h <;> omega
      obtain ⟨g2, rfl⟩ : ∃ g2, g = g2 + 1 := by
        cases g with
        | zero => simp at hg; omega
        | succ g2 => exact ⟨g2, rfl⟩
      have hq1 : n / 16 < 16 ^ (f + 1) := by
        rw [Nat.div_lt_iff_lt_mul (by norm_num)]
        calc n < 16 ^ (f + 1 + 1) := hf
          _ = 16 ^ (f + 1) * 16 := by ring
      have hq2 : n / 16 < 16 ^ (g2 + 1) := by
        rw [Nat.div_lt_iff_lt_mul (by norm_num)]
        calc n < 16 ^ (g2 + 1 + 1) := hg
          _ = 16 ^ (g2 + 1) * 16 := by ring
      have hr : n % 16 < 16 := Nat.mod_lt _ (by norm_num)
      rw [Nat.toDigitsCore, hexAux]
      simp only [h0, if_false, hn]
      rw [ih g2 (n / 16) _ hq1 hq2]
      simp [digitChar_toNat _ hr]

/-- The text `printf` writes for `%x` and `%zx` is the lowercase hexadecimal
numeral of the specification. -/
theorem hex_eq_spec_hex (n : Nat) (h : n < 18446744073709551616) : hex n = spec_hex n := by
  unfold hex spec_hex Nat.toDigits
  have hg : n < 16 ^ (n + 1) :=
    calc n < 16 ^ n := Nat.lt_pow_self (by norm_num) n
      _ ≤ 16 ^ (n + 1) := Nat.pow_le_pow_right (by norm_num) (by omega)
  rw [toDigitsCore_eq_hexAux 15 n n [] (by norm_num; exact h) hg]
  rfl

/-! ## Encoding (`add_to_db_log`) -/

theorem strip_nul_take (ib : List Nat) :
    ib.take (if ib.length > 0 ∧ ib[ib.length - 1]? = some 0 then ib.length - 1 else ib.length)
      = spec_strip_nul ib ∧
    (if ib.length > 0 ∧ ib[ib.length - 1]? = some 0 then ib.length - 1 else ib.length)
      = (spec_strip_nul ib).length := by
  unfold spec_strip_nul
  rw [← List.getLast?_eq_getElem?]
  by_cases h : ib.length > 0 ∧ ib.getLast? = some 0
  · have h2 : ib ≠ [] ∧ ib.getLast? = some 0 := ⟨List.length_pos.1 h.1, h.2⟩
    rw [if_pos h, if_pos h2]
    simp [List.dropLast_eq_take]
  · have h2 : ¬ (ib ≠ [] ∧ ib.getLast? = some 0) := fun hh => h ⟨List.length_pos.2 hh.1, hh.2⟩
    rw [if_neg h, if_neg h2]
    simp

theorem fmt_x_eq (verb : Int) : fmt_x verb = spec_hex (verb % 4294967296).toNat := by
  unfold fmt_x
  exact hex_eq_spec_hex _ (by omega)

theorem fmt_zx_eq (n : Nat) (h : n < 18446744073709551616) : fmt_zx n = spec_hex n := by
  unfold fmt_zx
  rw [Nat.mod_eq_of_lt h]
  exact hex_eq_spec_hex _ h

theorem spec_strip_nul_length_le (ib : List Nat) : (spec_strip_nul ib).length ≤ ib.length := by
  unfold spec_strip_nul
  split <;> simp

/-- The bytes staged for a request are the layout of the specification. -/
theorem record_bytes_eq_spec_layout (cfg : Config) (env : Env) (verb : Int)
    (uri ib : List Nat) (hpull : env.pullup_ok = true)
    (hu : strlen uri < 18446744073709551616) (hb : ib.length < 18446744073709551616) :
    record_bytes cfg env verb uri ib
      = spec_encode cfg verb uri ib := by
  have hs := strip_nul_take ib
  have hle := spec_strip_nul_length_le ib
  unfold record_bytes spec_encode spec_layout
  by_cases h0 : ib.length > 0
  · simp only [h0, if_true, hpull, true_and]
    simp only [h0, true_and] at hs
    rw [hs.1, hs.2, fmt_x_eq, fmt_zx_eq _ hu, fmt_zx_eq _ (by omega)]
    simp [strlen]
  · have hnil : ib = [] := by
      cases ib with
      | nil => rfl
      | cons a as => simp at h0
    subst hnil
    simp only [List.length_nil, gt_iff_lt, lt_self_iff_false, if_false]
    rw [fmt_x_eq, fmt_zx_eq _ hu, fmt_zx_eq _ (by omega)]
    simp [strlen, spec_strip_nul]

/-- What `add_to_db_log` hands to its policy step: the old staging buffer followed
by the layout of the specification. -/
theorem add_to_db_log_stages (cfg : Config) (env : Env) (verb : Int) (uri ib : List Nat)
    (s : State) (buf : List Nat)
    (hfd : s.db_log_fd ≠ -1) (hbuf : s.log_buffer = some buf)
    (hpull : env.pullup_ok = true)
    (hmaxu : cfg.DB_LOG_MAX_URI_LEN < 18446744073709551616)
    (hmaxb : cfg.DB_LOG_MAX_BODY_LEN < 18446744073709551616)
    (hu : strlen uri ≤ cfg.DB_LOG_MAX_URI_LEN) (hb : ib.length ≤ cfg.DB_LOG_MAX_BODY_LEN) :
    add_to_db_log cfg env verb uri ib s
      = add_to_db_log_policy cfg
          { s with log_buffer := some (buf ++ spec_encode cfg verb uri ib) } := by
  have hfd' : ¬ s.db_log_fd = -1 := hfd
  have hlim : ¬ (strlen uri > cfg.DB_LOG_MAX_URI_LEN ∨ ib.length > cfg.DB_LOG_MAX_BODY_LEN) := by
    omega
  unfold add_to_db_log
  simp only [hfd', if_false, hlim, hbuf]
  rw [record_bytes_eq_spec_layout cfg env verb uri ib hpull (by omega) (by omega)]

/-- C2.  For an open journal and a request within the size limits,
`add_to_db_log` hands to its policy step (the flush, if any) a staging buffer
that is the old staging buffer followed by exactly: head marker, lowercase hex
of the verb (read as `unsigned int`, as `%x` does), a space, lowercase hex of
the length of the uri, a colon, the uri, a space, lowercase hex of the length of
the NUL-stripped body, a colon, the NUL-stripped body, tail marker.  Nothing is
escaped and the bytes staged before stay in front. -/
theorem add_to_db_log_layout (cfg : Config) (env : Env) (verb : Int) (uri ib : List Nat)
    (s : State) (buf : List Nat)
    (hfd : s.db_log_fd ≠ -1) (hbuf : s.log_buffer = some buf)
    (hpull : env.pullup_ok = true)
    (hmaxu : cfg.DB_LOG_MAX_URI_LEN < 18446744073709551616)
    (hmaxb : cfg.DB_LOG_MAX_BODY_LEN < 18446744073709551616)
    (hu : strlen uri ≤ cfg.DB_LOG_MAX_URI_LEN) (hb : ib.length ≤ cfg.DB_LOG_MAX_BODY_LEN) :
    add_to_db_log cfg env verb uri ib s
      = add_to_db_log_policy cfg
          { s with log_buffer := some (buf ++ spec_encode cfg verb uri ib) } := by
  have hfd' : ¬ s.db_log_fd = -1 := hfd
  have hlim : ¬ (strlen uri > cfg.DB_LOG_MAX_URI_LEN ∨ ib.length > cfg.DB_LOG_MAX_BODY_LEN) := by
    omega
  unfold add_to_db_log
  simp only [hfd', if_false, hlim, hbuf]
  rw [record_bytes_eq_spec_layout cfg env verb uri ib hpull (by omega) (by omega)]

/-- Check of C2 on the request (1, "/k1", "v1" with its terminating NUL) and a
journal that already stages one byte. -/
theorem add_to_db_log_layout_witness :
    add_to_db_log sample_cfg sample_env 1 [47, 107, 49] [118, 49, 0]
        { sample_state [] with log_buffer := some [7] }
      = add_to_db_log_policy sample_cfg
          { sample_state [] with log_buffer := some ([7] ++
              spec_layout [80, 67, 62] [60, 80, 67] 1 [47, 107, 49] [118, 49, 0]) } :=
  add_to_db_log_layout sample_cfg sample_env 1 [47, 107, 49] [118, 49, 0]
    { sample_state [] with log_buffer := some [7] } [7]
    (by decide) rfl rfl (by decide) (by decide) (by decide) (by decide)

/-- C3.  For an open journal, a uri longer than `DB_LOG_MAX_URI_LEN` or a body
longer than `DB_LOG_MAX_BODY_LEN` makes `add_to_db_log` return -1 and leaves the
whole state as it was: staging buffer, file content and file offset. -/
theorem add_to_db_log_too_large (cfg : Config) (env : Env) (verb : Int) (uri ib : List Nat)
    (s : State) (hfd : s.db_log_fd ≠ -1)
    (hbig : strlen uri > cfg.DB_LOG_MAX_URI_LEN ∨ ib.length > cfg.DB_LOG_MAX_BODY_LEN) :
    add_to_db_log cfg env verb uri ib s = some (-1, s) := by
  have hfd' : ¬ s.db_log_fd = -1 := hfd
  unfold add_to_db_log
  simp only [hfd', if_false, hbig, if_true]

/-- Check of C3 on a uri of nine bytes, one more than the limit of the sample
configuration. -/
theorem add_to_db_log_too_large_witness :
    add_to_db_log sample_cfg sample_env 1 [47, 97, 98, 99, 100, 101, 102, 103, 104] [118]
        (sample_state [1, 2]) = some (-1, sample_state [1, 2]) :=
  add_to_db_log_too_large sample_cfg sample_env 1 [47, 97, 98, 99, 100, 101, 102, 103, 104] [118]
    (sample_state [1, 2]) (by decide) (Or.inl (by decide))

/-! ## Flushing (`flush_db_log`) -/

theorem file_write_read_back (file : List Nat) (pos : Nat) (data : List Nat) :
    ((file_write file pos data).drop pos).take data.length = data := by
  unfold file_write
  by_cases hd : data = []
  · simp [hd]
  · have hlen : (file.take pos ++ List.replicate (pos - file.length) 0).length = pos := by
      simp only [List.length_append, List.length_take, List.length_replicate]
      omega
    rw [if_neg hd, List.append_assoc, List.append_assoc, ← List.append_assoc (file.take pos),
      List.drop_left' hlen, List.take_left]

theorem spec_encode_ne_nil (cfg : Config) (verb : Int) (uri ib : List Nat) :
    spec_encode cfg verb uri ib ≠ [] := by
  unfold spec_encode spec_layout
  simp

/-- A write that takes everything empties the staging buffer into the file. -/
theorem evbuffer_write_all (buf : List Nat) (s : State)
    (hw : next_write_takes_all s buf.length = true) :
    evbuffer_write buf s
      = ((buf.length : Int),
          { s with writes := s.writes.tail
                   file := file_write s.file s.pos buf
                   pos := s.pos + buf.length
                   log_buffer := some []
                   trace := s.trace ++ [Event.write buf] }) := by
  unfold next_write_takes_all at hw
  unfold evbuffer_write emit
  cases hws : s.writes with
  | nil => simp
  | cons o rest =>
    rw [hws] at hw
    cases o with
    | accept n =>
      simp only [decide_eq_true_eq] at hw
      simp [List.take_of_length_le hw]
    | fail e => simp at hw

/-- A flush whose write takes everything. -/
theorem flush_db_log_all (cfg : Config) (sync : Bool) (s : State) (buf : List Nat)
    (hfd : s.db_log_fd ≠ -1) (hbuf : s.log_buffer = some buf) (hne : buf ≠ [])
    (hw : next_write_takes_all s buf.length = true) :
    flush_db_log cfg sync s
      = some (0,
          { s with writes := s.writes.tail
                   file := file_write s.file s.pos buf
                   pos := s.pos + buf.length
                   log_buffer := some []
                   trace := s.trace ++ [Event.write buf] ++
                     (if sync then [if cfg.HAVE_FDATASYNC then Event.fdatasync else Event.fsync]
                      else []) }) := by
  have hfd' : ¬ s.db_log_fd = -1 := hfd
  have hlen : ¬ buf.length ≤ 0 := by
    have := List.length_pos.2 hne
    omega
  unfold flush_db_log
  simp only [hfd', if_false, hbuf, hlen]
  unfold flush_db_log_body
  rw [evbuffer_write_all buf s hw]
  cases sync with
  | false =>
    simp
    rw [if_neg (by omega)]
  | true => simp [emit]

/-- C7.  Always-sync policy (`fsync_period == 0`): for an open journal and a
request within the size limits, when the write takes all bytes offered,
`add_to_db_log` returns 0 with the staging buffer empty, the file holding,
from the previous offset on, the bytes staged before followed by the encoding of
the request, and the effects are the write followed by the data sync. -/
theorem add_to_db_log_always_sync (cfg : Config) (env : Env) (verb : Int) (uri ib : List Nat)
    (s : State) (buf : List Nat)
    (hfd : s.db_log_fd ≠ -1) (hbuf : s.log_buffer = some buf)
    (hpull : env.pullup_ok = true)
    (hmaxu : cfg.DB_LOG_MAX_URI_LEN < 18446744073709551616)
    (hmaxb : cfg.DB_LOG_MAX_BODY_LEN < 18446744073709551616)
    (hu : strlen uri ≤ cfg.DB_LOG_MAX_URI_LEN) (hb : ib.length ≤ cfg.DB_LOG_MAX_BODY_LEN)
    (hper : s.fsync_period = 0)
    (hw : next_write_takes_all s (buf ++ spec_encode cfg verb uri ib).length = true) :
    ∃ s1, add_to_db_log cfg env verb uri ib s = some (0, s1) ∧
      s1.log_buffer = some [] ∧
      s1.pos = s.pos + (buf ++ spec_encode cfg verb uri ib).length ∧
      (s1.file.drop s.pos).take (buf ++ spec_encode cfg verb uri ib).length
        = buf ++ spec_encode cfg verb uri ib ∧
      s1.trace = s.trace ++ [Event.write (buf ++ spec_encode cfg verb uri ib),
        if cfg.HAVE_FDATASYNC then Event.fdatasync else Event.fsync] := by
  rw [add_to_db_log_stages cfg env verb uri ib s buf hfd hbuf hpull hmaxu hmaxb hu hb]
  have hne : buf ++ spec_encode cfg verb uri ib ≠ [] := by
    simp [spec_encode_ne_nil]
  obtain ⟨s2, hs2⟩ : ∃ s2 : State,
      s2 = { s with log_buffer := some (buf ++ spec_encode cfg verb uri ib) } := ⟨_, rfl⟩
  have h2fd : s2.db_log_fd ≠ -1 := by rw [hs2]; exact hfd
  have h2buf : s2.log_buffer = some (buf ++ spec_encode cfg verb uri ib) := by rw [hs2]
  have h2per : s2.fsync_period = 0 := by rw [hs2]; exact hper
  have h2w : next_write_takes_all s2 (buf ++ spec_encode cfg verb uri ib).length = true := by
    rw [hs2]; exact hw
  have hfl := flush_db_log_all cfg true s2 (buf ++ spec_encode cfg verb uri ib) h2fd h2buf hne h2w
  rw [← hs2]
  unfold add_to_db_log_policy
  simp only [h2buf, h2per, if_true, hfl]
  refine ⟨_, rfl, rfl, ?_, ?_, ?_⟩
  · simp [hs2]
  · have hf := file_write_read_back s.file s.pos (buf ++ spec_encode cfg verb uri ib)
    simpa [hs2] using hf
  · simp [hs2]

/-- Check of C7: the request (1, "/k1", "v1") on a journal at offset 1 of a
three-byte file, with one byte staged. -/
theorem add_to_db_log_always_sync_witness :
    ∃ s1, add_to_db_log sample_cfg sample_env 1 [47, 107, 49] [118, 49]
        { sample_state [1, 2, 3] with fsync_period := 0, log_buffer := some [7], pos := 1 }
          = some (0, s1) ∧
      s1.log_buffer = some [] ∧
      s1.pos = 1 + ([7] ++ spec_encode sample_cfg 1 [47, 107, 49] [118, 49]).length ∧
      (s1.file.drop 1).take ([7] ++ spec_encode sample_cfg 1 [47, 107, 49] [118, 49]).length
        = [7] ++ spec_encode sample_cfg 1 [47, 107, 49] [118, 49] ∧
      s1.trace = [] ++ [Event.write ([7] ++ spec_encode sample_cfg 1 [47, 107, 49] [118, 49]),
        if sample_cfg.HAVE_FDATASYNC then Event.fdatasync else Event.fsync] :=
  add_to_db_log_always_sync sample_cfg sample_env 1 [47, 107, 49] [118, 49]
    { sample_state [1, 2, 3] with fsync_period := 0, log_buffer := some [7], pos := 1 } [7]
    (by decide) rfl rfl (by decide) (by decide) (by decide) (by decide) rfl rfl

theorem evbuffer_write_trace (buf : List Nat) (s : State) :
    ∃ e, e.is_write = true ∧ e.is_sync = false ∧ (evbuffer_write buf s).2.trace = s.trace ++ [e] := by
  unfold evbuffer_write
  cases hws : s.writes with
  | nil => exact ⟨Event.write (buf.take buf.length), rfl, rfl, by simp [emit]⟩
  | cons o rest =>
    cases o with
    | accept n => exact ⟨Event.write (buf.take n), rfl, rfl, by simp [emit]⟩
    | fail e => exact ⟨Event.write_failed e, rfl, rfl, by simp [emit]⟩

theorem flush_db_log_body_trace (to_write : Nat) (buf : List Nat) (s : State) :
    ∃ evs, (flush_db_log_body to_write buf s).2.trace = s.trace ++ evs ∧
      (∃ e ∈ evs, e.is_write = true) ∧ (∀ e ∈ evs, e.is_sync = false) := by
  obtain ⟨e, hw, hs, htr⟩ := evbuffer_write_trace buf s
  unfold flush_db_log_body
  simp only []
  split
  · split
    · exact ⟨[e], htr, ⟨e, List.mem_singleton.2 rfl, hw⟩, fun x hx => by
        rw [List.mem_singleton.1 hx]; exact hs⟩
    · split
      · refine ⟨[e, Event.usleep (1000000 / 10)], by simp [emit, htr], ⟨e, by simp, hw⟩, ?_⟩
        intro x hx
        simp only [List.mem_cons, List.mem_singleton, List.not_mem_nil, or_false] at hx
        rcases hx with hx | hx
        · rw [hx]; exact hs
        · rw [hx]; rfl
      · exact ⟨[e], htr, ⟨e, List.mem_singleton.2 rfl, hw⟩, fun x hx => by
          rw [List.mem_singleton.1 hx]; exact hs⟩
  · exact ⟨[e], htr, ⟨e, List.mem_singleton.2 rfl, hw⟩, fun x hx => by
      rw [List.mem_singleton.1 hx]; exact hs⟩

/-- A flush without sync of a non-empty staging buffer calls `write(2)` and
issues no sync, however the write ends. -/
theorem flush_db_log_no_sync (cfg : Config) (s : State) (buf : List Nat)
    (hfd : s.db_log_fd ≠ -1) (hbuf : s.log_buffer = some buf) (hne : buf ≠ []) :
    ∃ r s1 evs, flush_db_log cfg false s = some (r, s1) ∧ s1.trace = s.trace ++ evs ∧
      (∃ e ∈ evs, e.is_write = true) ∧ (∀ e ∈ evs, e.is_sync = false) := by
  have hfd' : ¬ s.db_log_fd = -1 := hfd
  have hlen : ¬ buf.length ≤ 0 := by
    have := List.length_pos.2 hne
    omega
  obtain ⟨evs, htr, hw, hs⟩ := flush_db_log_body_trace 0 buf s
  unfold flush_db_log
  simp only [hfd', if_false, hbuf, hlen, if_true, ne_eq, not_true_eq_false]
  rcases hbody : flush_db_log_body 0 buf s with ⟨c, s1⟩
  rw [hbody] at htr
  cases c with
  | fallthrough => exact ⟨0, s1, evs, rfl, htr, hw, hs⟩
  | continue_ => exact ⟨0, s1, evs, rfl, htr, hw, hs⟩
  | return_ r => exact ⟨r, s1, evs, rfl, htr, hw, hs⟩

/-- One `write(2)` that takes `n` bytes: the first `n` staged bytes go to the
file at the offset, which advances past them, and leave the staging buffer. -/
theorem evbuffer_write_accept (buf : List Nat) (s : State) (n : Nat) (rest : List WriteOutcome)
    (hw : s.writes = WriteOutcome.accept n :: rest) :
    evbuffer_write buf s
      = (((buf.take n).length : Int),
          { s with writes := rest
                   file := file_write s.file s.pos (buf.take n)
                   pos := s.pos + (buf.take n).length
                   log_buffer := some (buf.drop n)
                   trace := s.trace ++ [Event.write (buf.take n)] }) := by
  have hd : buf.drop (buf.take n).length = buf.drop n := by
    rw [List.length_take]
    by_cases h : n ≤ buf.length
    · rw [Nat.min_eq_left h]
    · have h1 : buf.length ≤ n := by omega
      rw [Nat.min_eq_right h1, List.drop_of_length_le h1, List.drop_of_length_le (le_refl _)]
  unfold evbuffer_write emit
  simp only [hw, List.tail_cons, hd]

/-- One `write(2)` that fails: `errno` is set and nothing else changes. -/
theorem evbuffer_write_fail (buf : List Nat) (s : State) (e : Errno) (rest : List WriteOutcome)
    (hw : s.writes = WriteOutcome.fail e :: rest) :
    evbuffer_write buf s
      = (-1, { s with writes := rest
                      errno := e
                      trace := s.trace ++ [Event.write_failed e] }) := by
  unfold evbuffer_write emit
  simp only [hw, List.tail_cons]

/-- A flush without sync whose write takes `n` bytes returns 0 after that one
write, whether or not bytes stay behind. -/
theorem flush_db_log_false_accept (cfg : Config) (s : State) (buf : List Nat) (n : Nat)
    (rest : List WriteOutcome)
    (hfd : s.db_log_fd ≠ -1) (hbuf : s.log_buffer = some buf) (hne : buf ≠ [])
    (hw : s.writes = WriteOutcome.accept n :: rest) :
    flush_db_log cfg false s
      = some (0,
          { s with writes := rest
                   file := file_write s.file s.pos (buf.take n)
                   pos := s.pos + (buf.take n).length
                   log_buffer := some (buf.drop n)
                   trace := s.trace ++ [Event.write (buf.take n)] }) := by
  have hfd' : ¬ s.db_log_fd = -1 := hfd
  have hlen : ¬ buf.length ≤ 0 := by
    have := List.length_pos.2 hne
    omega
  unfold flush_db_log
  simp only [hfd', if_false, hbuf, hlen]
  unfold flush_db_log_body
  rw [evbuffer_write_accept buf s n rest hw]
  have hnn : ¬ (((buf.take n).length : Int) < ((0 : Nat) : Int)) := by
    have : (0 : Int) ≤ ((buf.take n).length : Int) := Int.ofNat_nonneg _
    simp only [Nat.cast_zero]
    omega
  simp only [if_true]
  rw [if_neg hnn]
  simp

/-- A flush whose write fails: with `EINTR` it returns 0 at once, with `EAGAIN`
or `EWOULDBLOCK` it returns 0 after sleeping a tenth of a second, with any other
error it returns -1.  In each case no byte has left the staging buffer; after
a return of 0 the sync, if one was asked for, is issued all the same. -/
theorem flush_db_log_fail (cfg : Config) (sync : Bool) (s : State) (buf : List Nat) (e : Errno)
    (rest : List WriteOutcome)
    (hfd : s.db_log_fd ≠ -1) (hbuf : s.log_buffer = some buf) (hne : buf ≠ [])
    (hw : s.writes = WriteOutcome.fail e :: rest) :
    flush_db_log cfg sync s
      = if e = Errno.EINTR ∨ e = Errno.EAGAIN ∨ e = Errno.EWOULDBLOCK then
          some (0,
            { s with writes := rest
                     errno := e
                     trace := s.trace ++ [Event.write_failed e]
                       ++ (if e = Errno.EINTR then [] else [Event.usleep 100000])
                       ++ (if sync then
                            [if cfg.HAVE_FDATASYNC then Event.fdatasync else Event.fsync]
                           else []) })
        else
          some (-1,
            { s with writes := rest
                     errno := e
                     trace := s.trace ++ [Event.write_failed e] }) := by
  have hfd' : ¬ s.db_log_fd = -1 := hfd
  have hlen : ¬ buf.length ≤ 0 := by
    have := List.length_pos.2 hne
    omega
  have hneg : ((-1 : Int) < ((if sync = false then 0 else buf.length : Nat) : Int)) := by
    have : (0 : Int) ≤ ((if sync = false then 0 else buf.length : Nat) : Int) :=
      Int.ofNat_nonneg _
    omega
  unfold flush_db_log
  simp only [hfd', if_false, hbuf, hlen]
  unfold flush_db_log_body
  rw [evbuffer_write_fail buf s e rest hw]
  simp only []
  rw [if_pos hneg]
  by_cases h1 : e = Errno.EINTR
  · rw [if_pos h1]
    cases sync <;> simp [h1, emit, hbuf]
  · rw [if_neg h1]
    by_cases h2 : e = Errno.EAGAIN ∨ e = Errno.EWOULDBLOCK
    · rw [if_pos h2]
      cases sync <;> simp [h1, h2, emit, hbuf]
    · have h3 : ¬ (e = Errno.EINTR ∨ e = Errno.EAGAIN ∨ e = Errno.EWOULDBLOCK) := by
        rintro (h | h)
        · exact h1 h
        · exact h2 h
      rw [if_neg h2, if_neg h3]
      simp [hbuf]

/-- Lines 109-114 under the threshold policy with the threshold exceeded: the
state is the one `flush_db_log(0)` leaves and the result is 0 whatever the flush
returned. -/
theorem add_to_db_log_policy_threshold (cfg : Config) (s s1 : State) (total : List Nat)
    (r : Int) (hbuf : s.log_buffer = some total) (hper : s.fsync_period ≠ 0)
    (hlt : s.journal_buffer_size < total.length)
    (hfl : flush_db_log cfg false s = some (r, s1)) :
    add_to_db_log_policy cfg s = some (0, s1) := by
  have hper' : ¬ s.fsync_period = 0 := hper
  have hgt : total.length > s.journal_buffer_size := hlt
  unfold add_to_db_log_policy
  simp only [hbuf, hper', if_false, hgt, if_true, hfl]

/-- C8.  Threshold policy (`fsync_period != 0`): for an open journal and a
request within the size limits, with `total` the staging buffer after the record
is appended.  If `total` is not longer than `journal_buffer_size`, the call
returns 0 and changes nothing but the staging buffer, which becomes `total`: no
write, file content and offset as before.  If `total` is longer, the call
returns 0 after effects that contain a `write(2)` call and no sync.  So
`write(2)` is called on the file exactly when `total` is longer than the
threshold.  The last three parts give the state after the call when `total` is
longer, for each way the one `write(2)` can end.  If it takes everything, the
bytes of `total` are in the file at the old offset, the offset is past them,
the staging buffer is empty and the only effect is that write.  If it takes `n`
bytes, the same holds for the first `n` bytes of `total`, and the others stay
staged.  If it fails with `e`, file, offset and staging buffer `total` are
untouched, `errno` is `e`, and the effects are the failed write, followed by a
sleep of a tenth of a second when `e` is `EAGAIN` or `EWOULDBLOCK`. -/
theorem add_to_db_log_threshold (cfg : Config) (env : Env) (verb : Int) (uri ib : List Nat)
    (s : State) (buf : List Nat)
    (hfd : s.db_log_fd ≠ -1) (hbuf : s.log_buffer = some buf)
    (hpull : env.pullup_ok = true)
    (hmaxu : cfg.DB_LOG_MAX_URI_LEN < 18446744073709551616)
    (hmaxb : cfg.DB_LOG_MAX_BODY_LEN < 18446744073709551616)
    (hu : strlen uri ≤ cfg.DB_LOG_MAX_URI_LEN) (hb : ib.length ≤ cfg.DB_LOG_MAX_BODY_LEN)
    (hper : s.fsync_period ≠ 0) :
    ((buf ++ spec_encode cfg verb uri ib).length ≤ s.journal_buffer_size →
      add_to_db_log cfg env verb uri ib s
        = some (0, { s with log_buffer := some (buf ++ spec_encode cfg verb uri ib) })) ∧
    (s.journal_buffer_size < (buf ++ spec_encode cfg verb uri ib).length →
      ∃ s1 evs, add_to_db_log cfg env verb uri ib s = some (0, s1) ∧
        s1.trace = s.trace ++ evs ∧ (∃ e ∈ evs, e.is_write = true) ∧
        (∀ e ∈ evs, e.is_sync = false)) ∧
    (∀ s1, add_to_db_log cfg env verb uri ib s = some (0, s1) →
      ((∃ e ∈ s1.trace.drop s.trace.length, e.is_write = true) ↔
        s.journal_buffer_size < (buf ++ spec_encode cfg verb uri ib).length)) ∧
    (s.journal_buffer_size < (buf ++ spec_encode cfg verb uri ib).length →
      next_write_takes_all s (buf ++ spec_encode cfg verb uri ib).length = true →
      add_to_db_log cfg env verb uri ib s
        = some (0,
            { s with writes := s.writes.tail
                     file := file_write s.file s.pos (buf ++ spec_encode cfg verb uri ib)
                     pos := s.pos + (buf ++ spec_encode cfg verb uri ib).length
                     log_buffer := some []
                     trace := s.trace ++ [Event.write (buf ++ spec_encode cfg verb uri ib)] })) ∧
    (s.journal_buffer_size < (buf ++ spec_encode cfg verb uri ib).length →
      ∀ n rest, s.writes = WriteOutcome.accept n :: rest →
      add_to_db_log cfg env verb uri ib s
        = some (0,
            { s with writes := rest
                     file := file_write s.file s.pos
                       ((buf ++ spec_encode cfg verb uri ib).take n)
                     pos := s.pos + ((buf ++ spec_encode cfg verb uri ib).take n).length
                     log_buffer := some ((buf ++ spec_encode cfg verb uri ib).drop n)
                     trace := s.trace
                       ++ [Event.write ((buf ++ spec_encode cfg verb uri ib).take n)] })) ∧
    (s.journal_buffer_size < (buf ++ spec_encode cfg verb uri ib).length →
      ∀ e rest, s.writes = WriteOutcome.fail e :: rest →
      add_to_db_log cfg env verb uri ib s
        = some (0,
            { s with writes := rest
                     errno := e
                     log_buffer := some (buf ++ spec_encode cfg verb uri ib)
                     trace := s.trace ++ [Event.write_failed e]
                       ++ (if e = Errno.EAGAIN ∨ e = Errno.EWOULDBLOCK then
                            [Event.usleep 100000]
                           else []) })) := by
  have hst := add_to_db_log_stages cfg env verb uri ib s buf hfd hbuf hpull hmaxu hmaxb hu hb
  have hne : buf ++ spec_encode cfg verb uri ib ≠ [] := by
    simp [spec_encode_ne_nil]
  have hold :
      ((buf ++ spec_encode cfg verb uri ib).length ≤ s.journal_buffer_size →
        add_to_db_log cfg env verb uri ib s
          = some (0, { s with log_buffer := some (buf ++ spec_encode cfg verb uri ib) })) ∧
      (s.journal_buffer_size < (buf ++ spec_encode cfg verb uri ib).length →
        ∃ s1 evs, add_to_db_log cfg env verb uri ib s = some (0, s1) ∧
          s1.trace = s.trace ++ evs ∧ (∃ e ∈ evs, e.is_write = true) ∧
          (∀ e ∈ evs, e.is_sync = false)) ∧
      (∀ s1, add_to_db_log cfg env verb uri ib s = some (0, s1) →
        ((∃ e ∈ s1.trace.drop s.trace.length, e.is_write = true) ↔
          s.journal_buffer_size < (buf ++ spec_encode cfg verb uri ib).length)) := by
    rw [hst]
    obtain ⟨s2, hs2⟩ : ∃ s2 : State,
        s2 = { s with log_buffer := some (buf ++ spec_encode cfg verb uri ib) } := ⟨_, rfl⟩
    have h2fd : s2.db_log_fd ≠ -1 := by rw [hs2]; exact hfd
    have h2buf : s2.log_buffer = some (buf ++ spec_encode cfg verb uri ib) := by rw [hs2]
    have h2per : ¬ s2.fsync_period = 0 := by rw [hs2]; exact hper
    have h2jbs : s2.journal_buffer_size = s.journal_buffer_size := by rw [hs2]
    have h2tr : s2.trace = s.trace := by rw [hs2]
    rw [← hs2]
    have hsmall : (buf ++ spec_encode cfg verb uri ib).length ≤ s.journal_buffer_size →
        add_to_db_log_policy cfg s2 = some (0, s2) := by
      intro h
      have h' : ¬ (buf ++ spec_encode cfg verb uri ib).length > s2.journal_buffer_size := by
        rw [h2jbs]; omega
      unfold add_to_db_log_policy
      simp only [h2buf, h2per, if_false, h']
    have hlarge : s.journal_buffer_size < (buf ++ spec_encode cfg verb uri ib).length →
        ∃ s1 evs, add_to_db_log_policy cfg s2 = some (0, s1) ∧
          s1.trace = s.trace ++ evs ∧ (∃ e ∈ evs, e.is_write = true) ∧
          (∀ e ∈ evs, e.is_sync = false) := by
      intro h
      have h' : (buf ++ spec_encode cfg verb uri ib).length > s2.journal_buffer_size := by
        rw [h2jbs]; omega
      obtain ⟨r, s1, evs, hfl, htr, hwr, hsy⟩ :=
        flush_db_log_no_sync cfg s2 (buf ++ spec_encode cfg verb uri ib) h2fd h2buf hne
      refine ⟨s1, evs, ?_, by rw [htr, h2tr], hwr, hsy⟩
      unfold add_to_db_log_policy
      simp only [h2buf, h2per, if_false, h', if_true, hfl]
    refine ⟨hsmall, hlarge, ?_⟩
    intro s1 hs1
    constructor
    · rintro ⟨e, he, hew⟩
      by_contra hcon
      have hle : (buf ++ spec_encode cfg verb uri ib).length ≤ s.journal_buffer_size := by omega
      rw [hsmall hle] at hs1
      simp only [Option.some.injEq, Prod.mk.injEq, true_and] at hs1
      rw [← hs1, h2tr] at he
      simp at he
    · intro h
      obtain ⟨s1b, evs, hadd, htr, hwr, _⟩ := hlarge h
      rw [hadd] at hs1
      simp only [Option.some.injEq, Prod.mk.injEq, true_and] at hs1
      rw [← hs1, htr]
      simpa using hwr
  refine ⟨hold.1, hold.2.1, hold.2.2, ?_, ?_, ?_⟩
  · intro hlt hall
    have hfl := flush_db_log_all cfg false
      { s with log_buffer := some (buf ++ spec_encode cfg verb uri ib) }
      (buf ++ spec_encode cfg verb uri ib) hfd rfl hne hall
    rw [hst, add_to_db_log_policy_threshold cfg
      { s with log_buffer := some (buf ++ spec_encode cfg verb uri ib) } _ _ 0 rfl hper hlt hfl]
    simp
  · intro hlt n rest hw
    have hfl := flush_db_log_false_accept cfg
      { s with log_buffer := some (buf ++ spec_encode cfg verb uri ib) }
      (buf ++ spec_encode cfg verb uri ib) n rest hfd rfl hne hw
    rw [hst, add_to_db_log_policy_threshold cfg
      { s with log_buffer := some (buf ++ spec_encode cfg verb uri ib) } _ _ 0 rfl hper hlt hfl]
  · intro hlt e rest hw
    have hfl := flush_db_log_fail cfg false
      { s with log_buffer := some (buf ++ spec_encode cfg verb uri ib) }
      (buf ++ spec_encode cfg verb uri ib) e rest hfd rfl hne hw
    by_cases ht : e = Errno.EINTR ∨ e = Errno.EAGAIN ∨ e = Errno.EWOULDBLOCK
    · rw [if_pos ht] at hfl
      rw [hst, add_to_db_log_policy_threshold cfg
      { s with log_buffer := some (buf ++ spec_encode cfg verb uri ib) } _ _ 0 rfl hper hlt hfl]
      rcases ht with h | h | h <;> simp [h]
    · rw [if_neg ht] at hfl
      rw [hst, add_to_db_log_policy_threshold cfg
      { s with log_buffer := some (buf ++ spec_encode cfg verb uri ib) } _ _ (-1) rfl hper hlt hfl]
      have h2 : ¬ (e = Errno.EAGAIN ∨ e = Errno.EWOULDBLOCK) := fun h => ht (Or.inr h)
      simp [h2]

/-- Check of C8 with the request (1, "/k1", "v1"), whose record has 18 bytes, on
a journal whose file holds the bytes 1 2.  With the threshold at 64 bytes the
record is only staged.  With the threshold at 4 bytes and a `write(2)` that
takes everything, the 18 bytes are in the file and the staging buffer is empty.
With the threshold at 4 bytes and a `write(2)` that takes 5 bytes, those 5 bytes
are in the file and the other 13 stay staged.  With the threshold at 4 bytes
and a `write(2)` that fails with `EAGAIN`, the record stays staged and the call
sleeps once.  No sync is issued in any of them. -/
theorem add_to_db_log_threshold_witness :
    add_to_db_log sample_cfg sample_env 1 [47, 107, 49] [118, 49] (sample_state [1, 2])
      = some (0,
          { sample_state [1, 2] with
            log_buffer := some
              [80, 67, 62, 49, 32, 51, 58, 47, 107, 49, 32, 50, 58, 118, 49, 60, 80, 67] }) ∧
    add_to_db_log sample_cfg sample_env 1 [47, 107, 49] [118, 49]
        { sample_state [1, 2] with journal_buffer_size := 4 }
      = some (0,
          { sample_state
              [80, 67, 62, 49, 32, 51, 58, 47, 107, 49, 32, 50, 58, 118, 49, 60, 80, 67] with
            journal_buffer_size := 4
            pos := 18
            trace := [Event.write
              [80, 67, 62, 49, 32, 51, 58, 47, 107, 49, 32, 50, 58, 118, 49, 60, 80, 67]] }) ∧
    add_to_db_log sample_cfg sample_env 1 [47, 107, 49] [118, 49]
        { sample_state [1, 2] with
          journal_buffer_size := 4
          writes := [WriteOutcome.accept 5] }
      = some (0,
          { sample_state [80, 67, 62, 49, 32] with
            journal_buffer_size := 4
            pos := 5
            log_buffer := some [51, 58, 47, 107, 49, 32, 50, 58, 118, 49, 60, 80, 67]
            trace := [Event.write [80, 67, 62, 49, 32]] }) ∧
    add_to_db_log sample_cfg sample_env 1 [47, 107, 49] [118, 49]
        { sample_state [1, 2] with
          journal_buffer_size := 4
          writes := [WriteOutcome.fail Errno.EAGAIN] }
      = some (0,
          { sample_state [1, 2] with
            journal_buffer_size := 4
            errno := Errno.EAGAIN
            log_buffer := some
              [80, 67, 62, 49, 32, 51, 58, 47, 107, 49, 32, 50, 58, 118, 49, 60, 80, 67]
            trace := [Event.write_failed Errno.EAGAIN, Event.usleep 100000] }) :=
  ⟨(add_to_db_log_threshold sample_cfg sample_env 1 [47, 107, 49] [118, 49]
      (sample_state [1, 2]) []
      (by decide) rfl rfl (by decide) (by decide) (by decide) (by decide) (by decide)).1
      (by decide),
    (add_to_db_log_threshold sample_cfg sample_env 1 [47, 107, 49] [118, 49]
      { sample_state [1, 2] with journal_buffer_size := 4 } []
      (by decide) rfl rfl (by decide) (by decide) (by decide) (by decide)
      (by decide)).2.2.2.1 (by decide) rfl,
    (add_to_db_log_threshold sample_cfg sample_env 1 [47, 107, 49] [118, 49]
      { sample_state [1, 2] with
        journal_buffer_size := 4
        writes := [WriteOutcome.accept 5] } []
      (by decide) rfl rfl (by decide) (by decide) (by decide) (by decide)
      (by decide)).2.2.2.2.1 (by decide) 5 [] rfl,
    (add_to_db_log_threshold sample_cfg sample_env 1 [47, 107, 49] [118, 49]
      { sample_state [1, 2] with
        journal_buffer_size := 4
        writes := [WriteOutcome.fail Errno.EAGAIN] } []
      (by decide) rfl rfl (by decide) (by decide) (by decide) (by decide)
      (by decide)).2.2.2.2.2 (by decide) Errno.EAGAIN [] rfl⟩

/-- C9, as stated, fails: a flush without sync whose write takes one of two
staged bytes returns 0 and leaves the other byte staged. -/
theorem flush_db_log_partial_counterexample :
    flush_db_log sample_cfg false
        { sample_state [] with log_buffer := some [65, 66], writes := [WriteOutcome.accept 1] }
      = some (0, { sample_state [65] with
          log_buffer := some [66]
          pos := 1
          trace := [Event.write [65]] }) ∧
    (some [66] : Option (List Nat)) ≠ some [] := by
  decide

/-- C10 at the failing inputs: one byte is staged, the first `write(2)` fails
with `EINTR` (first part) or `EAGAIN` (second part) and the next one would take
everything.  The flush returns 0 after that single write call: the byte is
still staged, the file is still empty and the second write outcome was never
asked for. -/
theorem flush_db_log_transient_no_retry :
    flush_db_log sample_cfg true
        { sample_state [] with
            log_buffer := some [65]
            writes := [WriteOutcome.fail Errno.EINTR, WriteOutcome.accept 1] }
      = some (0, { sample_state [] with
          log_buffer := some [65]
          errno := Errno.EINTR
          writes := [WriteOutcome.accept 1]
          trace := [Event.write_failed Errno.EINTR, Event.fdatasync] }) ∧
    flush_db_log sample_cfg true
        { sample_state [] with
            log_buffer := some [65]
            writes := [WriteOutcome.fail Errno.EAGAIN, WriteOutcome.accept 1] }
      = some (0, { sample_state [] with
          log_buffer := some [65]
          errno := Errno.EAGAIN
          writes := [WriteOutcome.accept 1]
          trace := [Event.write_failed Errno.EAGAIN, Event.usleep 100000, Event.fdatasync] }) := by
  decide

/-- What `evbuffer_write` leaves behind: for some `k` (the number of bytes the
write took, 0 when it failed) the first `k` staged bytes are in the file at the
old offset, the offset moved by `k`, and the rest is still staged. -/
theorem evbuffer_write_effect (buf : List Nat) (s : State) (hbuf : s.log_buffer = some buf) :
    ∃ k, k ≤ buf.length ∧ ((evbuffer_write buf s).1 = (k : Int) ∨ (evbuffer_write buf s).1 = -1) ∧
      (evbuffer_write buf s).2.log_buffer = some (buf.drop k) ∧
      (evbuffer_write buf s).2.file = file_write s.file s.pos (buf.take k) ∧
      (evbuffer_write buf s).2.pos = s.pos + k := by
  unfold evbuffer_write
  cases hws : s.writes with
  | nil =>
    refine ⟨buf.length, le_refl _, Or.inl ?_, ?_, ?_, ?_⟩ <;> simp [emit]
  | cons o rest =>
    cases o with
    | accept n =>
      refine ⟨(buf.take n).length, ?_, Or.inl ?_, ?_, ?_, ?_⟩
      · simp
      · simp
      · simp [emit]
      · have : List.take (min n buf.length) buf = List.take n buf := by
          rw [List.take_eq_take]
          simp
        simp [emit, this]
      · simp [emit]
    | fail e =>
      refine ⟨0, Nat.zero_le _, Or.inr ?_, ?_, ?_, ?_⟩
      · simp
      · simp [emit, hbuf]
      · simp [emit, file_write]
      · simp [emit]

/-- C9, amended.  For an open journal, every sync flag and every behaviour of
the write: when `flush_db_log` returns 0 and its write loop was not left through
one of the two `continue` statements, then for some `k` the first `k` staged
bytes have been written to the file, in order, from the previous offset on, the
offset has moved by `k`, and the staging buffer holds exactly the bytes after
the first `k`.  With the sync flag set `k` is the number of staged bytes: the
staging buffer is empty and every staged byte has been written. -/
theorem flush_db_log_success (cfg : Config) (sync : Bool) (s s1 : State) (buf : List Nat)
    (hfd : s.db_log_fd ≠ -1) (hbuf : s.log_buffer = some buf)
    (hret : flush_db_log cfg sync s = some (0, s1))
    (hloop : (flush_db_log_body (if sync = false then 0 else buf.length) buf s).1
      ≠ Ctl.continue_) :
    ∃ k, k ≤ buf.length ∧
      s1.log_buffer = some (buf.drop k) ∧
      s1.file = file_write s.file s.pos (buf.take k) ∧
      (s1.file.drop s.pos).take k = buf.take k ∧
      s1.pos = s.pos + k ∧
      (sync = true → k = buf.length ∧ s1.log_buffer = some []) := by
  have hfd' : ¬ s.db_log_fd = -1 := hfd
  unfold flush_db_log at hret
  simp only [hfd', if_false, hbuf] at hret
  by_cases hlen : buf.length ≤ 0
  · have hnil : buf = [] := List.length_eq_zero.1 (by omega)
    simp only [hlen, if_true, Option.some.injEq, Prod.mk.injEq, true_and] at hret
    subst hret
    subst hnil
    exact ⟨0, le_refl _, by simpa using hbuf, by simp [file_write], by simp, by simp,
      fun _ => ⟨rfl, by simpa using hbuf⟩⟩
  · simp only [hlen, if_false] at hret
    obtain ⟨k, hk, hw, hlb, hfile, hpos⟩ := evbuffer_write_effect buf s hbuf
    unfold flush_db_log_body at hret hloop
    generalize evbuffer_write buf s = w at hret hloop hw hlb hfile hpos
    obtain ⟨written, s2⟩ := w
    simp only at hret hloop hw hlb hfile hpos
    have hback : (List.drop s.pos (file_write s.file s.pos (buf.take k))).take k = buf.take k := by
      have := file_write_read_back s.file s.pos (buf.take k)
      rwa [List.length_take, Nat.min_eq_left hk] at this
    cases sync with
    | false =>
      simp only [if_true, Nat.cast_zero, ne_eq, not_true_eq_false, if_false] at hret hloop
      by_cases hneg : written < 0
      · simp only [hneg, if_true] at hret hloop
        by_cases h1 : s2.errno = Errno.EINTR
        · simp [h1] at hloop
        · by_cases h2 : s2.errno = Errno.EAGAIN ∨ s2.errno = Errno.EWOULDBLOCK
          · simp [h1, h2] at hloop
          · simp [h1, h2] at hret
      · simp only [hneg, if_false, Option.some.injEq, Prod.mk.injEq, true_and] at hret
        subst hret
        exact ⟨k, hk, hlb, hfile, by rw [hfile]; exact hback, hpos, fun h => by simp at h⟩
    | true =>
      simp only [Bool.true_eq_false, if_false, ne_eq, not_false_eq_true, if_true] at hret hloop
      by_cases hlt : written < (buf.length : Int)
      · simp only [hlt, if_true] at hret hloop
        by_cases h1 : s2.errno = Errno.EINTR
        · simp [h1] at hloop
        · by_cases h2 : s2.errno = Errno.EAGAIN ∨ s2.errno = Errno.EWOULDBLOCK
          · simp [h1, h2] at hloop
          · simp [h1, h2] at hret
      · simp only [hlt, if_false, Option.some.injEq, Prod.mk.injEq, true_and] at hret
        subst hret
        have hkl : k = buf.length := by omega
        refine ⟨k, hk, by simpa [emit] using hlb, by simpa [emit] using hfile, ?_,
          by simpa [emit] using hpos, fun _ => ⟨hkl, ?_⟩⟩
        · simp only [emit, hfile]
          exact hback
        · simp only [emit, hlb, hkl, List.drop_length]

/-- Check of the amended C9: a flush with sync of two staged bytes whose write
takes everything. -/
theorem flush_db_log_success_witness :
    ∃ k, k ≤ [65, 66].length ∧
      ({ sample_state [65, 66] with
          log_buffer := some []
          pos := 2
          trace := [Event.write [65, 66], Event.fdatasync] } : State).log_buffer
        = some ([65, 66].drop k) ∧
      ({ sample_state [65, 66] with
          log_buffer := some []
          pos := 2
          trace := [Event.write [65, 66], Event.fdatasync] } : State).file
        = file_write [] 0 ([65, 66].take k) ∧
      ((({ sample_state [65, 66] with
          log_buffer := some []
          pos := 2
          trace := [Event.write [65, 66], Event.fdatasync] } : State).file.drop 0).take k
        = [65, 66].take k) ∧
      ({ sample_state [65, 66] with
          log_buffer := some []
          pos := 2
          trace := [Event.write [65, 66], Event.fdatasync] } : State).pos = 0 + k ∧
      (true = true → k = [65, 66].length ∧
        ({ sample_state [65, 66] with
          log_buffer := some []
          pos := 2
          trace := [Event.write [65, 66], Event.fdatasync] } : State).log_buffer = some []) :=
  flush_db_log_success sample_cfg true
    { sample_state [] with log_buffer := some [65, 66] }
    { sample_state [65, 66] with
        log_buffer := some []
        pos := 2
        trace := [Event.write [65, 66], Event.fdatasync] }
    [65, 66] (by decide) rfl (by decide) (by decide)

/-! ## Replay (`replay_log_record`, `replay_log`) -/

theorem int_of_long_unsigned (verb : Int) (h1 : -2147483648 ≤ verb) (h2 : verb < 2147483648) :
    int_of_long (((verb % 4294967296).toNat : Nat) : Int) = verb := by
  unfold int_of_long
  omega

theorem spec_encode_frame (cfg : Config) (verb : Int) (uri ib : List Nat)
    (hu : strlen uri < 18446744073709551616) (hb : ib.length < 18446744073709551616) :
    spec_encode cfg verb uri ib
      = cfg.DB_LOG_RECORD_COOKIE_HEAD ++ (hex (verb % 4294967296).toNat ++ 32 ::
          (hex (cstr uri).length ++ 58 :: (cstr uri ++ 32 ::
            (hex (spec_strip_nul ib).length ++ 58 ::
              (spec_strip_nul ib ++ cfg.DB_LOG_RECORD_COOKIE_TAIL))))) := by
  have hle := spec_strip_nul_length_le ib
  have hu2 : (cstr uri).length < 18446744073709551616 := hu
  unfold spec_encode spec_layout
  rw [← hex_eq_spec_hex _ (by omega), ← hex_eq_spec_hex _ hu2, ← hex_eq_spec_hex _ (by omega)]
  simp

/-- Replaying one encoded request, whatever follows it in the file: the
handler is called with the request and the offset ends behind the record. -/
theorem replay_log_record_encoded (cfg : Config) (env : Env) (verb : Int) (uri ib : List Nat)
    (s : State) (rest : List Nat)
    (hfd : s.db_log_fd ≠ -1)
    (hhead : cfg.DB_LOG_RECORD_COOKIE_HEAD ≠ [])
    (hv1 : -2147483648 ≤ verb) (hv2 : verb < 2147483648)
    (hne : cstr uri ≠ [])
    (hu : strlen uri < 9223372036854775808) (hb : ib.length < 9223372036854775808)
    (hmu : env.malloc_ok (strlen uri + 1) = true)
    (hmb : spec_strip_nul ib ≠ [] → env.malloc_ok ((spec_strip_nul ib).length + 1) = true)
    (hrem : remaining s = spec_encode cfg verb uri ib ++ rest) :
    replay_log_record cfg env s
      = Outcome.ret 0 (emit (Event.fake_request verb (cstr uri)
          (if spec_strip_nul ib = [] then none else some (spec_strip_nul ib))
          (spec_strip_nul ib).length)
          (adv (spec_encode cfg verb uri ib).length s)) := by
  have hle := spec_strip_nul_length_le ib
  have hframe := spec_encode_frame cfg verb uri ib (by omega) (by omega)
  have h := replay_log_record_frame cfg env s (verb % 4294967296).toNat (cstr uri)
    (spec_strip_nul ib) rest hfd hhead (by omega) hne hu (by omega) hmu hmb
    (by rw [hrem, hframe]; simp)
  rw [h, int_of_long_unsigned verb hv1 hv2, hframe]
  congr 3
  simp only [List.length_append, List.length_cons]
  omega

/-- C1, as stated, fails for the empty uri: the record staged for
(1, "", "v1") is answered with -1, at offset 7 (behind the uri length field
`0:`), and the handler is not called. -/
theorem replay_log_record_empty_uri_counterexample :
    replay_log_record sample_cfg sample_env
        (sample_state (record_bytes sample_cfg sample_env 1 [] [118, 49]))
      = Outcome.ret (-1)
          { sample_state (record_bytes sample_cfg sample_env 1 [] [118, 49]) with pos := 7 } := by
  decide

/-- C1, amended (the uri is not empty).  For every verb, every non-empty uri and
every body within the size limits, `replay_log_record` on a file that holds
exactly the bytes `add_to_db_log` stages for (verb, uri, body) returns 0 after
one handler call, with the same verb, the same uri, and the body bytes and
length without the one trailing NUL the body may have had (a body of no bytes is
handed over as a NULL pointer with length 0).  The offset ends at the end of the
file. -/
theorem replay_log_record_round_trip (cfg : Config) (env : Env) (verb : Int) (uri ib : List Nat)
    (s : State)
    (hfd : s.db_log_fd ≠ -1)
    (hhead : cfg.DB_LOG_RECORD_COOKIE_HEAD ≠ [])
    (hv1 : -2147483648 ≤ verb) (hv2 : verb < 2147483648)
    (hne : cstr uri ≠ [])
    (hmaxu : cfg.DB_LOG_MAX_URI_LEN < 9223372036854775808)
    (hmaxb : cfg.DB_LOG_MAX_BODY_LEN < 9223372036854775808)
    (hu : strlen uri ≤ cfg.DB_LOG_MAX_URI_LEN) (hb : ib.length ≤ cfg.DB_LOG_MAX_BODY_LEN)
    (hpull : env.pullup_ok = true)
    (hmu : env.malloc_ok (strlen uri + 1) = true)
    (hmb : spec_strip_nul ib ≠ [] → env.malloc_ok ((spec_strip_nul ib).length + 1) = true)
    (hfile : s.file = record_bytes cfg env verb uri ib) (hpos : s.pos = 0) :
    replay_log_record cfg env s
      = Outcome.ret 0
          { s with
            pos := s.file.length
            trace := s.trace ++ [Event.fake_request verb (cstr uri)
              (if spec_strip_nul ib = [] then none else some (spec_strip_nul ib))
              (spec_strip_nul ib).length] } := by
  have henc := record_bytes_eq_spec_layout cfg env verb uri ib hpull (by omega) (by omega)
  have hrem : remaining s = spec_encode cfg verb uri ib ++ [] := by
    unfold remaining
    rw [hpos, hfile, henc]
    simp
  rw [replay_log_record_encoded cfg env verb uri ib s [] hfd hhead hv1 hv2 hne (by omega)
    (by omega) hmu hmb hrem]
  simp [emit, adv, hpos, hfile, henc]

/-- Check of the amended C1 on the request (1, "/k1", "v1" with its terminating
NUL). -/
theorem replay_log_record_round_trip_witness :
    replay_log_record sample_cfg sample_env
        (sample_state (record_bytes sample_cfg sample_env 1 [47, 107, 49] [118, 49, 0]))
      = Outcome.ret 0
          { sample_state (record_bytes sample_cfg sample_env 1 [47, 107, 49] [118, 49, 0]) with
            pos := (record_bytes sample_cfg sample_env 1 [47, 107, 49] [118, 49, 0]).length
            trace := [] ++ [Event.fake_request 1 [47, 107, 49] (some [118, 49]) 2] } :=
  replay_log_record_round_trip sample_cfg sample_env 1 [47, 107, 49] [118, 49, 0]
    (sample_state (record_bytes sample_cfg sample_env 1 [47, 107, 49] [118, 49, 0]))
    (by decide) (by decide) (by decide) (by decide) (by decide) (by decide) (by decide)
    (by decide) (by decide) rfl rfl (fun _ => rfl) rfl rfl

theorem replay_log_record_eof (cfg : Config) (env : Env) (s : State)
    (hfd : s.db_log_fd ≠ -1) (hrem : remaining s = []) :
    replay_log_record cfg env s = Outcome.ret 1 s := by
  have hfd' : ¬ s.db_log_fd = -1 := hfd
  have hr := safe_read_short s cfg.DB_LOG_RECORD_COOKIE_HEAD.length (by simp [hrem])
  rw [hrem] at hr
  simp only [List.length_nil, adv_zero] at hr
  unfold replay_log_record
  simp [hfd', hr]

theorem journal_bytes_eq (cfg : Config) (env : Env) (hpull : env.pullup_ok = true)
    (hmaxu : cfg.DB_LOG_MAX_URI_LEN < 9223372036854775808)
    (hmaxb : cfg.DB_LOG_MAX_BODY_LEN < 9223372036854775808)
    (r : Request) (rs : List Request) (hr : r.well_formed cfg) :
    journal_bytes cfg env (r :: rs)
      = spec_encode cfg r.verb r.uri r.body ++ journal_bytes cfg env rs := by
  obtain ⟨_, _, _, hu, hb⟩ := hr
  rw [journal_bytes, record_bytes_eq_spec_layout cfg env r.verb r.uri r.body hpull (by omega)
    (by omega)]

/-- The loop of `replay_log` over a file that holds well-formed records from the
current offset to its end. -/
theorem replay_log_loop_clean (cfg : Config) (env : Env)
    (hhead : cfg.DB_LOG_RECORD_COOKIE_HEAD ≠ [])
    (hmaxu : cfg.DB_LOG_MAX_URI_LEN < 9223372036854775808)
    (hmaxb : cfg.DB_LOG_MAX_BODY_LEN < 9223372036854775808)
    (hpull : env.pullup_ok = true) (hmalloc : ∀ n, env.malloc_ok n = true)
    (rs : List Request) :
    ∀ (fuel counter : Nat) (s : State), (∀ r ∈ rs, r.well_formed cfg) →
      s.db_log_fd ≠ -1 → remaining s = journal_bytes cfg env rs → rs.length < fuel →
      replay_log_loop cfg env fuel counter s
        = some (Outcome.ret 0
            { s with
              pos := s.pos + (journal_bytes cfg env rs).length
              trace := s.trace ++ rs.map Request.replayed
                ++ [Event.printf_replayed (counter + rs.length)] }) := by
  induction rs with
  | nil =>
    intro fuel counter s _ hfd hrem hfuel
    obtain ⟨f, rfl⟩ : ∃ f, fuel = f + 1 := ⟨fuel - 1, by simp at hfuel; omega⟩
    rw [replay_log_loop, replay_log_record_eof cfg env s hfd hrem]
    simp [emit, journal_bytes]
  | cons r rs ih =>
    intro fuel counter s hwf hfd hrem hfuel
    obtain ⟨f, rfl⟩ : ∃ f, fuel = f + 1 := ⟨fuel - 1, by simp at hfuel; omega⟩
    have hr : r.well_formed cfg := hwf r (by simp)
    have hj := journal_bytes_eq cfg env hpull hmaxu hmaxb r rs hr
    obtain ⟨hv1, hv2, hne, hu, hb⟩ := hr
    rw [hj] at hrem
    have hrec := replay_log_record_encoded cfg env r.verb r.uri r.body s
      (journal_bytes cfg env rs) hfd hhead hv1 hv2 hne (by omega) (by omega) (hmalloc _)
      (fun _ => hmalloc _) hrem
    have hrem2 := remaining_adv s _ _ hrem
    have hih := ih f (counter + 1)
      (emit r.replayed (adv (spec_encode cfg r.verb r.uri r.body).length s))
      (fun x hx => hwf x (by simp [hx])) hfd hrem2 (by simp at hfuel; omega)
    rw [replay_log_loop, hrec]
    simp only [if_true]
    unfold Request.replayed at hih
    rw [hih, hj]
    simp [emit, adv, Request.replayed, Nat.add_assoc, Nat.add_comm 1]

/-- C4.  For every list of well-formed records (within the size limits, uri not
empty), `replay_log` on an open journal whose file is exactly the concatenation
of their encodings, at offset 0, returns 0 once it may run one iteration more
than there are records; the handler has been called once per record, with the
record's verb, uri, body and body length, in the order written; the count
printed is the number of records; the file content is unchanged and the offset
is the length of the file. -/
theorem replay_log_clean (cfg : Config) (env : Env) (rs : List Request) (s : State) (fuel : Nat)
    (hhead : cfg.DB_LOG_RECORD_COOKIE_HEAD ≠ [])
    (hmaxu : cfg.DB_LOG_MAX_URI_LEN < 9223372036854775808)
    (hmaxb : cfg.DB_LOG_MAX_BODY_LEN < 9223372036854775808)
    (hpull : env.pullup_ok = true) (hmalloc : ∀ n, env.malloc_ok n = true)
    (hwf : ∀ r ∈ rs, r.well_formed cfg)
    (hfd : s.db_log_fd ≠ -1)
    (hfile : s.file = journal_bytes cfg env rs) (hpos : s.pos = 0)
    (hfuel : rs.length < fuel) :
    replay_log cfg env fuel s
      = some (Outcome.ret 0
          { s with
            pos := s.file.length
            trace := s.trace ++ [Event.puts_replaying] ++ rs.map Request.replayed
              ++ [Event.printf_replayed rs.length] }) := by
  have hrem : remaining (emit Event.puts_replaying s) = journal_bytes cfg env rs := by
    unfold remaining emit
    simp [hpos, hfile]
  unfold replay_log
  rw [replay_log_loop_clean cfg env hhead hmaxu hmaxb hpull hmalloc rs fuel 0
    (emit Event.puts_replaying s) hwf hfd hrem hfuel]
  simp [emit, hpos, hfile]

/-- Check of C4 on the two records (1, "/k1", "v1") and (2, "/k1", ""). -/
theorem replay_log_clean_witness :
    replay_log sample_cfg sample_env 3
        (sample_state (journal_bytes sample_cfg sample_env
          [⟨1, [47, 107, 49], [118, 49]⟩, ⟨2, [47, 107, 49], []⟩]))
      = some (Outcome.ret 0
          { sample_state (journal_bytes sample_cfg sample_env
              [⟨1, [47, 107, 49], [118, 49]⟩, ⟨2, [47, 107, 49], []⟩]) with
            pos := (journal_bytes sample_cfg sample_env
              [⟨1, [47, 107, 49], [118, 49]⟩, ⟨2, [47, 107, 49], []⟩]).length
            trace := [] ++ [Event.puts_replaying]
              ++ [Event.fake_request 1 [47, 107, 49] (some [118, 49]) 2,
                  Event.fake_request 2 [47, 107, 49] none 0]
              ++ [Event.printf_replayed 2] }) :=
  replay_log_clean sample_cfg sample_env
    [⟨1, [47, 107, 49], [118, 49]⟩, ⟨2, [47, 107, 49], []⟩]
    (sample_state (journal_bytes sample_cfg sample_env
      [⟨1, [47, 107, 49], [118, 49]⟩, ⟨2, [47, 107, 49], []⟩]))
    3 (by decide) (by decide) (by decide) rfl (fun _ => rfl)
    (by
      intro r hr
      simp only [List.mem_cons, List.mem_singleton, List.not_mem_nil, or_false] at hr
      rcases hr with rfl | rfl <;> unfold Request.well_formed <;> decide)
    (by decide) rfl rfl (by decide)

/-- C5 at the failing input.  The file holds the record of (1, "/k1", "v1"),
18 bytes, followed by the first nine bytes `PC>2 3:/k` of a second record.
First part: `replay_log` replays the first record and returns -1, but the offset
is 27, the end of the file, and the file still holds the partial record.
Second part: a following `add_to_db_log` of (3, "/k2", "") and `flush_db_log(1)`
put the new record behind the partial one, at offset 27 and not at 18.
Third part, the path that does restore: when only the first two bytes `PC` of
the second record are there, the file is cut back to 18 bytes and the offset is
18. -/
theorem replay_log_partial_record_not_truncated :
    replay_log sample_cfg sample_env 3
        (sample_state (record_bytes sample_cfg sample_env 1 [47, 107, 49] [118, 49]
          ++ [80, 67, 62, 50, 32, 51, 58, 47, 107]))
      = some (Outcome.ret (-1)
          { sample_state (record_bytes sample_cfg sample_env 1 [47, 107, 49] [118, 49]
              ++ [80, 67, 62, 50, 32, 51, 58, 47, 107]) with
            pos := 27
            trace := [Event.puts_replaying,
              Event.fake_request 1 [47, 107, 49] (some [118, 49]) 2,
              Event.printf_replayed 1, Event.puts_corrupted] }) ∧
    (add_to_db_log sample_cfg sample_env 3 [47, 107, 50] []
        { sample_state (record_bytes sample_cfg sample_env 1 [47, 107, 49] [118, 49]
            ++ [80, 67, 62, 50, 32, 51, 58, 47, 107]) with
          pos := 27
          trace := [Event.puts_replaying,
            Event.fake_request 1 [47, 107, 49] (some [118, 49]) 2,
            Event.printf_replayed 1, Event.puts_corrupted] }).bind
        (fun r => flush_db_log sample_cfg true r.2)
      = some (0,
          { sample_state (record_bytes sample_cfg sample_env 1 [47, 107, 49] [118, 49]
              ++ [80, 67, 62, 50, 32, 51, 58, 47, 107]
              ++ record_bytes sample_cfg sample_env 3 [47, 107, 50] []) with
            pos := 43
            trace := [Event.puts_replaying,
              Event.fake_request 1 [47, 107, 49] (some [118, 49]) 2,
              Event.printf_replayed 1, Event.puts_corrupted,
              Event.write (record_bytes sample_cfg sample_env 3 [47, 107, 50] []),
              Event.fdatasync] }) ∧
    replay_log sample_cfg sample_env 3
        (sample_state (record_bytes sample_cfg sample_env 1 [47, 107, 49] [118, 49]
          ++ [80, 67]))
      = some (Outcome.ret (-1)
          { sample_state (record_bytes sample_cfg sample_env 1 [47, 107, 49] [118, 49]) with
            pos := 18
            trace := [Event.puts_replaying,
              Event.fake_request 1 [47, 107, 49] (some [118, 49]) 2,
              Event.printf_replayed 1, Event.puts_corrupted] }) := by
  decide

/-- C6 at the failing input.  The file holds the record of (1, "/k1", "v1") with
the head cookie `PC>` replaced by the bytes 9 9 9 and the tail cookie `<PC`
replaced by 8 8 8.  `replay_log_record` returns 0 and calls the handler: the
cookies read are compared with themselves, so only their length counts. -/
theorem replay_log_record_wrong_cookies_accepted :
    replay_log_record sample_cfg sample_env
        (sample_state [9, 9, 9, 49, 32, 51, 58, 47, 107, 49, 32, 50, 58, 118, 49, 8, 8, 8])
      = Outcome.ret 0
          { sample_state [9, 9, 9, 49, 32, 51, 58, 47, 107, 49, 32, 50, 58, 118, 49, 8, 8, 8] with
            pos := 18
            trace := [Event.fake_request 1 [47, 107, 49] (some [118, 49]) 2] } ∧
    record_bytes sample_cfg sample_env 1 [47, 107, 49] [118, 49]
      = [80, 67, 62, 49, 32, 51, 58, 47, 107, 49, 32, 50, 58, 118, 49, 60, 80, 67] := by
  decide

/-! ## Error status of `add_to_db_log` -/

/-- C12.  With no path configured, `open_db_log` returns 1 and only sets the
descriptor to -1: no `open` call is made and, right after `init_db_log`,
nothing changes at all.  In every state whose descriptor is -1,
`add_to_db_log` (any verb, uri and body, of any size) and `flush_db_log` (either
sync flag) return 0 and leave the whole state as it was: no write, no sync. -/
theorem disabled_journal_noop (cfg : Config) (env : Env) (s0 s : State) (verb : Int)
    (uri ib : List Nat) (sync : Bool) (hfd : s.db_log_fd = -1) :
    (init_db_log cfg s0).2.db_log_file_name = none ∧
    open_db_log cfg env (init_db_log cfg s0).2 = some (1, (init_db_log cfg s0).2) ∧
    (init_db_log cfg s0).2.db_log_fd = -1 ∧
    (init_db_log cfg s0).2.trace = s0.trace ∧ (init_db_log cfg s0).2.file = s0.file ∧
    add_to_db_log cfg env verb uri ib s = some (0, s) ∧
    flush_db_log cfg sync s = some (0, s) := by
  refine ⟨rfl, rfl, rfl, rfl, rfl, ?_, ?_⟩
  · unfold add_to_db_log
    simp [hfd]
  · unfold flush_db_log
    simp [hfd]

/-- Check of C12: a body of 17 bytes, above the limit of the sample
configuration, on a journal that is not open. -/
theorem disabled_journal_noop_witness :
    (init_db_log sample_cfg (sample_state [1])).2.db_log_file_name = none ∧
    open_db_log sample_cfg sample_env (init_db_log sample_cfg (sample_state [1])).2
      = some (1, (init_db_log sample_cfg (sample_state [1])).2) ∧
    (init_db_log sample_cfg (sample_state [1])).2.db_log_fd = -1 ∧
    (init_db_log sample_cfg (sample_state [1])).2.trace = (sample_state [1]).trace ∧
    (init_db_log sample_cfg (sample_state [1])).2.file = (sample_state [1]).file ∧
    add_to_db_log sample_cfg sample_env 1 [47, 107, 49]
        [1, 2, 3, 4, 5, 6, 7, 8, 9, 10, 11, 12, 13, 14, 15, 16, 17]
        { sample_state [1] with db_log_fd := -1, log_buffer := none }
      = some (0, { sample_state [1] with db_log_fd := -1, log_buffer := none }) ∧
    flush_db_log sample_cfg true { sample_state [1] with db_log_fd := -1, log_buffer := none }
      = some (0, { sample_state [1] with db_log_fd := -1, log_buffer := none }) :=
  disabled_journal_noop sample_cfg sample_env (sample_state [1])
    { sample_state [1] with db_log_fd := -1, log_buffer := none } 1 [47, 107, 49]
    [1, 2, 3, 4, 5, 6, 7, 8, 9, 10, 11, 12, 13, 14, 15, 16, 17] true rfl

theorem replay_log_loop_disabled (cfg : Config) (env : Env) (s : State)
    (hfd : s.db_log_fd = -1) : ∀ fuel counter, replay_log_loop cfg env fuel counter s = none := by
  intro fuel
  induction fuel with
  | zero => intro counter; rfl
  | succ f ih =>
    intro counter
    have hrec : replay_log_record cfg env s = Outcome.ret 0 s := by
      unfold replay_log_record
      simp [hfd]
    rw [replay_log_loop, hrec]
    simp [ih]

/-- C13 at the failing input: a journal that is not open (descriptor -1).
`replay_log_record` returns 0, the status of a replayed record, without reading
anything, so the loop of `replay_log` goes on for ever: whatever the number of
iterations allowed, `replay_log` has not returned, while each iteration counts
one more record. -/
theorem replay_log_disabled_never_returns (fuel : Nat) :
    replay_log sample_cfg sample_env fuel
        { sample_state [] with db_log_fd := -1, log_buffer := none } = none ∧
    replay_log_record sample_cfg sample_env
        { sample_state [] with db_log_fd := -1, log_buffer := none }
      = Outcome.ret 0 { sample_state [] with db_log_fd := -1, log_buffer := none } := by
  constructor
  · unfold replay_log
    exact replay_log_loop_disabled sample_cfg sample_env _ rfl fuel 0
  · decide

/-! ## Opening and closing -/

/-- C17 at the failing input: a path is configured, `open` succeeds with
descriptor 3 and `evbuffer_new` returns NULL.  First part: `open_db_log` does
not get to return -1; its call of `free_db_log` goes through `close_db_log` to
`flush_db_log(1)`, which finds a valid descriptor and asks for the length of the
NULL staging buffer.  Second part: that flush, in the state `open_db_log` is in
at that point.  Third part: when it is `open` that fails, the function does
return -1 with the descriptor -1 and no staging buffer. -/
theorem open_db_log_buffer_failure_undefined :
    open_db_log sample_cfg { sample_env with evbuffer_new_ok := false }
        { sample_state [] with db_log_fd := -1, log_buffer := none } = none ∧
    flush_db_log sample_cfg true
        { sample_state [] with
          db_log_fd := 3
          log_buffer := none
          trace := [Event.open_call [106, 111, 117, 114, 110, 97, 108, 46, 100, 98] 3] } = none ∧
    open_db_log sample_cfg { sample_env with open_result := -1 }
        { sample_state [] with db_log_fd := -1, log_buffer := none }
      = some (-1,
          { sample_state [] with
            db_log_file_name := none
            db_log_fd := -1
            log_buffer := none
            trace := [Event.open_call [106, 111, 117, 114, 110, 97, 108, 46, 100, 98] (-1)] }) := by
  decide

/-! ## Body length and terminator -/

theorem spec_encode_eq_record_with_body (cfg : Config) (verb : Int) (uri ib : List Nat) :
    spec_encode cfg verb uri ib = record_with_body cfg verb uri (spec_strip_nul ib) := rfl

theorem spec_strip_nul_append_zero (b : List Nat) : spec_strip_nul (b ++ [0]) = b := by
  unfold spec_strip_nul
  simp

theorem spec_strip_nul_of_last_ne (body : List Nat) (h : body.getLast? ≠ some 0) :
    spec_strip_nul body = body := by
  unfold spec_strip_nul
  rw [if_neg]
  intro hh
  exact h hh.2

/-- C14.  For every verb and every non-empty uri within the limit, the record
staged for a body of no bytes, or of one NUL byte, is: head cookie, verb, space,
uri length, colon, uri, space, the body length field `0`, at once the colon and
the tail cookie.  `replay_log_record` on that record, whatever follows it in the
file, returns 0 after calling the handler with a NULL body of length 0, and the
offset has moved by exactly the length of the record: no body byte is read and
the tail cookie is read where it is. -/
theorem empty_body_record (cfg : Config) (env : Env) (verb : Int) (uri ib : List Nat)
    (s : State) (rest : List Nat)
    (hib : ib = [] ∨ ib = [0])
    (hfd : s.db_log_fd ≠ -1)
    (hhead : cfg.DB_LOG_RECORD_COOKIE_HEAD ≠ [])
    (hv1 : -2147483648 ≤ verb) (hv2 : verb < 2147483648)
    (hne : cstr uri ≠ [])
    (hmaxu : cfg.DB_LOG_MAX_URI_LEN < 9223372036854775808)
    (hu : strlen uri ≤ cfg.DB_LOG_MAX_URI_LEN)
    (hpull : env.pullup_ok = true)
    (hmu : env.malloc_ok (strlen uri + 1) = true)
    (hrem : remaining s = record_bytes cfg env verb uri ib ++ rest) :
    record_bytes cfg env verb uri ib
      = cfg.DB_LOG_RECORD_COOKIE_HEAD ++ spec_hex (verb % 4294967296).toNat ++ [32]
          ++ spec_hex (cstr uri).length ++ [58] ++ cstr uri ++ [32]
          ++ [48, 58] ++ cfg.DB_LOG_RECORD_COOKIE_TAIL ∧
    replay_log_record cfg env s
      = Outcome.ret 0 (emit (Event.fake_request verb (cstr uri) none 0)
          (adv (record_bytes cfg env verb uri ib).length s)) ∧
    remaining (adv (record_bytes cfg env verb uri ib).length s) = rest := by
  have hlen : ib.length < 9223372036854775808 := by
    rcases hib with h | h <;> subst h <;> simp
  have hstrip : spec_strip_nul ib = [] := by
    rcases hib with h | h <;> subst h <;> simp [spec_strip_nul]
  have henc := record_bytes_eq_spec_layout cfg env verb uri ib hpull (by omega) (by omega)
  have hzero : spec_hex 0 = [48] := by decide
  refine ⟨?_, ?_, ?_⟩
  · rw [henc, spec_encode_eq_record_with_body, hstrip]
    unfold record_with_body
    simp [hzero]
  · rw [henc] at hrem
    have h := replay_log_record_encoded cfg env verb uri ib s rest hfd hhead hv1 hv2 hne
      (by omega) hlen hmu (fun hc => absurd hstrip hc) hrem
    rw [h, henc, hstrip]
    simp
  · exact remaining_adv s _ _ hrem

/-- Check of C14 on the request (2, "/k1", body of one NUL byte), followed in the
file by one more byte. -/
theorem empty_body_record_witness :
    record_bytes sample_cfg sample_env 2 [47, 107, 49] [0]
      = sample_cfg.DB_LOG_RECORD_COOKIE_HEAD ++ spec_hex ((2 : Int) % 4294967296).toNat ++ [32]
          ++ spec_hex (cstr [47, 107, 49]).length ++ [58] ++ cstr [47, 107, 49] ++ [32]
          ++ [48, 58] ++ sample_cfg.DB_LOG_RECORD_COOKIE_TAIL ∧
    replay_log_record sample_cfg sample_env
        (sample_state (record_bytes sample_cfg sample_env 2 [47, 107, 49] [0] ++ [7]))
      = Outcome.ret 0 (emit (Event.fake_request 2 (cstr [47, 107, 49]) none 0)
          (adv (record_bytes sample_cfg sample_env 2 [47, 107, 49] [0]).length
            (sample_state (record_bytes sample_cfg sample_env 2 [47, 107, 49] [0] ++ [7])))) ∧
    remaining (adv (record_bytes sample_cfg sample_env 2 [47, 107, 49] [0]).length
        (sample_state (record_bytes sample_cfg sample_env 2 [47, 107, 49] [0] ++ [7]))) = [7] :=
  empty_body_record sample_cfg sample_env 2 [47, 107, 49] [0]
    (sample_state (record_bytes sample_cfg sample_env 2 [47, 107, 49] [0] ++ [7])) [7]
    (Or.inr rfl) (by decide) (by decide) (by decide) (by decide) (by decide) (by decide)
    (by decide) rfl rfl (by decide)

/-- C15.  For an open journal and a request whose uri is within its limit:
given the body `b ++ [0]` with `len(b) + 1` within the body limit,
`add_to_db_log` stages the record that persists exactly `b` with the length of
`b`, whatever `b` holds (NUL bytes inside or at the end of `b` stay); given a
body within the limit whose last byte is not NUL, it stages the record that
persists the body as it is, with its full length. -/
theorem add_to_db_log_strips_one_nul (cfg : Config) (env : Env) (verb : Int)
    (uri b body : List Nat) (s : State) (buf : List Nat)
    (hfd : s.db_log_fd ≠ -1) (hbuf : s.log_buffer = some buf)
    (hpull : env.pullup_ok = true)
    (hmaxu : cfg.DB_LOG_MAX_URI_LEN < 18446744073709551616)
    (hmaxb : cfg.DB_LOG_MAX_BODY_LEN < 18446744073709551616)
    (hu : strlen uri ≤ cfg.DB_LOG_MAX_URI_LEN)
    (hb : b.length + 1 ≤ cfg.DB_LOG_MAX_BODY_LEN)
    (hbody : body.length ≤ cfg.DB_LOG_MAX_BODY_LEN)
    (hlast : body.getLast? ≠ some 0) :
    add_to_db_log cfg env verb uri (b ++ [0]) s
      = add_to_db_log_policy cfg
          { s with log_buffer := some (buf ++ record_with_body cfg verb uri b) } ∧
    add_to_db_log cfg env verb uri body s
      = add_to_db_log_policy cfg
          { s with log_buffer := some (buf ++ record_with_body cfg verb uri body) } := by
  constructor
  · rw [add_to_db_log_stages cfg env verb uri (b ++ [0]) s buf hfd hbuf hpull hmaxu hmaxb hu
      (by simpa using hb), spec_encode_eq_record_with_body, spec_strip_nul_append_zero]
  · rw [add_to_db_log_stages cfg env verb uri body s buf hfd hbuf hpull hmaxu hmaxb hu hbody,
      spec_encode_eq_record_with_body, spec_strip_nul_of_last_ne body hlast]

/-- Check of C15: the body `v 0 0` (the inner NUL stays) and the body `0 v`. -/
theorem add_to_db_log_strips_one_nul_witness :
    add_to_db_log sample_cfg sample_env 1 [47, 107, 49] ([118, 0] ++ [0]) (sample_state [])
      = add_to_db_log_policy sample_cfg
          { sample_state [] with
            log_buffer := some ([] ++ record_with_body sample_cfg 1 [47, 107, 49] [118, 0]) } ∧
    add_to_db_log sample_cfg sample_env 1 [47, 107, 49] [0, 118] (sample_state [])
      = add_to_db_log_policy sample_cfg
          { sample_state [] with
            log_buffer := some ([] ++ record_with_body sample_cfg 1 [47, 107, 49] [0, 118]) } :=
  add_to_db_log_strips_one_nul sample_cfg sample_env 1 [47, 107, 49] [118, 0] [0, 118]
    (sample_state []) [] (by decide) rfl rfl (by decide) (by decide) (by decide) (by decide)
    (by decide) (by decide)

theorem evbuffer_write_frame (buf : List Nat) (s : State) (hbuf : s.log_buffer = some buf) :
    (evbuffer_write buf s).2.db_log_fd = s.db_log_fd ∧
    (evbuffer_write buf s).2.db_log_file_name = s.db_log_file_name ∧
    (∃ b, (evbuffer_write buf s).2.log_buffer = some b) := by
  unfold evbuffer_write
  cases hws : s.writes with
  | nil => simp [emit]
  | cons o rest =>
    cases o with
    | accept n => simp [emit]
    | fail e => simp [emit, hbuf]

theorem flush_db_log_body_frame (to_write : Nat) (buf : List Nat) (s : State)
    (hbuf : s.log_buffer = some buf) :
    (flush_db_log_body to_write buf s).2.db_log_fd = s.db_log_fd ∧
    (flush_db_log_body to_write buf s).2.db_log_file_name = s.db_log_file_name ∧
    (∃ b, (flush_db_log_body to_write buf s).2.log_buffer = some b) := by
  have h := evbuffer_write_frame buf s hbuf
  unfold flush_db_log_body
  simp only []
  split
  · split
    · exact h
    · split
      · simpa [emit] using h
      · exact h
  · exact h

/-- A flush returns whenever the staging buffer is allocated, and it keeps the
descriptor, the file name and the allocation of the staging buffer. -/
theorem flush_db_log_returns (cfg : Config) (sync : Bool) (s : State) (buf : List Nat)
    (hbuf : s.log_buffer = some buf) :
    ∃ r s1, flush_db_log cfg sync s = some (r, s1) ∧ s1.db_log_fd = s.db_log_fd ∧
      s1.db_log_file_name = s.db_log_file_name ∧ (∃ b, s1.log_buffer = some b) := by
  unfold flush_db_log
  by_cases hfd : s.db_log_fd = -1
  · exact ⟨0, s, by simp [hfd], rfl, rfl, buf, hbuf⟩
  · simp only [hfd, if_false, hbuf]
    by_cases hlen : buf.length ≤ 0
    · exact ⟨0, s, by simp [hlen], rfl, rfl, buf, hbuf⟩
    · simp only [hlen, if_false]
      obtain ⟨h1, h2, h3⟩ :=
        flush_db_log_body_frame (if sync = false then 0 else buf.length) buf s hbuf
      rcases hbody : flush_db_log_body (if sync = false then 0 else buf.length) buf s with ⟨c, s1⟩
      rw [hbody] at h1 h2 h3
      simp only at h1 h2 h3
      cases c with
      | return_ r => exact ⟨r, s1, rfl, h1, h2, h3⟩
      | fallthrough =>
        cases sync with
        | false => exact ⟨0, s1, by simp, h1, h2, h3⟩
        | true => exact ⟨0, _, by simp; rfl, by simpa [emit] using h1, by simpa [emit] using h2,
            by simpa [emit] using h3⟩
      | continue_ =>
        cases sync with
        | false => exact ⟨0, s1, by simp, h1, h2, h3⟩
        | true => exact ⟨0, _, by simp; rfl, by simpa [emit] using h1, by simpa [emit] using h2,
            by simpa [emit] using h3⟩

theorem close_db_log_closed (cfg : Config) (s : State) (hfd : s.db_log_fd = -1) :
    close_db_log cfg s = some (0, s) := by
  unfold close_db_log
  simp [hfd]

/-- Closing returns 0 with the descriptor at -1 whenever the staging buffer is
allocated or the journal is not open; the file name and the allocation of the
staging buffer stay. -/
theorem close_db_log_returns (cfg : Config) (s : State)
    (hinv : s.db_log_fd ≠ -1 → ∃ buf, s.log_buffer = some buf) :
    ∃ s1, close_db_log cfg s = some (0, s1) ∧ s1.db_log_fd = -1 ∧
      s1.db_log_file_name = s.db_log_file_name ∧
      ((∃ b, s.log_buffer = some b) → ∃ b, s1.log_buffer = some b) := by
  by_cases hfd : s.db_log_fd = -1
  · exact ⟨s, close_db_log_closed cfg s hfd, hfd, rfl, fun h => h⟩
  · obtain ⟨buf, hbuf⟩ := hinv hfd
    obtain ⟨r, s1, hfl, _, h2, h3⟩ := flush_db_log_returns cfg true s buf hbuf
    refine ⟨{ emit Event.close (emit Event.fsync s1) with db_log_fd := -1 }, ?_, ?_, ?_, ?_⟩
    · unfold close_db_log
      simp only [hfd, if_false, hfl]
    · rfl
    · simpa [emit] using h2
    · intro _
      simpa [emit] using h3

/-- C18.  For an open journal whose write takes all bytes offered,
`close_db_log` returns 0 with every staged byte in the file (in order, from the
previous offset on), the staging buffer empty and the descriptor -1.  A second
`close_db_log` returns 0 and changes nothing, and so does `close_db_log` after
any call of it that returned, whatever the state and the write were; on a
journal that is not open it changes nothing.  `free_db_log` after the close
leaves no file name, the descriptor -1 and no staging buffer, and a second
`free_db_log` changes nothing. -/
theorem close_db_log_contract (cfg : Config) (s : State) (buf : List Nat)
    (hfd : s.db_log_fd ≠ -1) (hbuf : s.log_buffer = some buf)
    (hw : next_write_takes_all s buf.length = true) :
    (∃ s1, close_db_log cfg s = some (0, s1) ∧ s1.db_log_fd = -1 ∧
      s1.log_buffer = some [] ∧ (s1.file.drop s.pos).take buf.length = buf ∧
      close_db_log cfg s1 = some (0, s1) ∧
      ∃ s2, free_db_log cfg s1 = some s2 ∧ s2.db_log_file_name = none ∧
        s2.db_log_fd = -1 ∧ s2.log_buffer = none ∧ free_db_log cfg s2 = some s2) ∧
    (∀ t r t1, close_db_log cfg t = some (r, t1) →
      r = 0 ∧ t1.db_log_fd = -1 ∧ close_db_log cfg t1 = some (0, t1)) ∧
    (∀ t, t.db_log_fd = -1 → close_db_log cfg t = some (0, t)) ∧
    (∀ t t1, free_db_log cfg t = some t1 →
      t1.db_log_file_name = none ∧ t1.db_log_fd = -1 ∧ t1.log_buffer = none ∧
        free_db_log cfg t1 = some t1) := by
  have hclose2 : ∀ t r t1, close_db_log cfg t = some (r, t1) →
      r = 0 ∧ t1.db_log_fd = -1 ∧ close_db_log cfg t1 = some (0, t1) := by
    intro t r t1 h
    unfold close_db_log at h
    by_cases htfd : t.db_log_fd = -1
    · simp only [htfd, if_true, Option.some.injEq, Prod.mk.injEq] at h
      obtain ⟨h1, h2⟩ := h
      subst h2
      exact ⟨h1.symm, htfd, close_db_log_closed cfg t htfd⟩
    · simp only [htfd, if_false] at h
      cases hfl : flush_db_log cfg true t with
      | none => simp [hfl] at h
      | some p =>
        simp only [hfl, Option.some.injEq, Prod.mk.injEq] at h
        obtain ⟨h1, h2⟩ := h
        subst h2
        exact ⟨h1.symm, rfl, close_db_log_closed cfg _ rfl⟩
  have hfree : ∀ t t1, free_db_log cfg t = some t1 →
      t1.db_log_file_name = none ∧ t1.db_log_fd = -1 ∧ t1.log_buffer = none ∧
        free_db_log cfg t1 = some t1 := by
    intro t t1 h
    unfold free_db_log at h
    cases hcl : close_db_log cfg t with
    | none => simp [hcl] at h
    | some p =>
      obtain ⟨r, t0⟩ := p
      obtain ⟨_, h0fd, _⟩ := hclose2 t r t0 hcl
      simp only [hcl, Option.some.injEq] at h
      subst h
      refine ⟨rfl, h0fd, rfl, ?_⟩
      unfold free_db_log
      rw [close_db_log_closed cfg
        { t0 with db_log_file_name := none, log_buffer := none } h0fd]
  refine ⟨?_, hclose2, close_db_log_closed cfg, hfree⟩
  have hfl : ∃ s0, flush_db_log cfg true s = some (0, s0) ∧ s0.log_buffer = some [] ∧
      (s0.file.drop s.pos).take buf.length = buf ∧ s0.db_log_fd = s.db_log_fd := by
    by_cases hnil : buf = []
    · subst hnil
      refine ⟨s, ?_, hbuf, by simp, rfl⟩
      unfold flush_db_log
      simp [hfd, hbuf]
    · refine ⟨_, flush_db_log_all cfg true s buf hfd hbuf hnil hw, rfl, ?_, rfl⟩
      exact file_write_read_back s.file s.pos buf
  obtain ⟨s0, hflush, h0buf, h0file, h0fd⟩ := hfl
  have hcl : close_db_log cfg s
      = some (0, { emit Event.close (emit Event.fsync s0) with db_log_fd := -1 }) := by
    unfold close_db_log
    simp only [hfd, if_false, hflush]
  refine ⟨_, hcl, rfl, by simpa [emit] using h0buf, by simpa [emit] using h0file,
    close_db_log_closed cfg _ rfl, ?_⟩
  have hfr : free_db_log cfg { emit Event.close (emit Event.fsync s0) with db_log_fd := -1 }
      = some { ({ emit Event.close (emit Event.fsync s0) with db_log_fd := -1 } : State) with
          db_log_file_name := none, log_buffer := none } := by
    unfold free_db_log
    rw [close_db_log_closed cfg _ rfl]
  exact ⟨_, hfr, hfree _ _ hfr⟩

/-- Check of C18: an open journal with two bytes staged, at offset 1 of a
one-byte file. -/
theorem close_db_log_contract_witness :
    (∃ s1, close_db_log sample_cfg { sample_state [9] with log_buffer := some [65, 66], pos := 1 }
        = some (0, s1) ∧ s1.db_log_fd = -1 ∧
      s1.log_buffer = some [] ∧ (s1.file.drop 1).take [65, 66].length = [65, 66] ∧
      close_db_log sample_cfg s1 = some (0, s1) ∧
      ∃ s2, free_db_log sample_cfg s1 = some s2 ∧ s2.db_log_file_name = none ∧
        s2.db_log_fd = -1 ∧ s2.log_buffer = none ∧ free_db_log sample_cfg s2 = some s2) ∧
    (∀ t r t1, close_db_log sample_cfg t = some (r, t1) →
      r = 0 ∧ t1.db_log_fd = -1 ∧ close_db_log sample_cfg t1 = some (0, t1)) ∧
    (∀ t, t.db_log_fd = -1 → close_db_log sample_cfg t = some (0, t)) ∧
    (∀ t t1, free_db_log sample_cfg t = some t1 →
      t1.db_log_file_name = none ∧ t1.db_log_fd = -1 ∧ t1.log_buffer = none ∧
        free_db_log sample_cfg t1 = some t1) :=
  close_db_log_contract sample_cfg { sample_state [9] with log_buffer := some [65, 66], pos := 1 }
    [65, 66] (by decide) rfl rfl

/-! ## What a call of `replay_log_record` can do to the state -/

theorem pos_moved_refl (s : State) : pos_moved s s := by
  refine ⟨by cases s; rfl, le_refl _, le_max_left _ _⟩

theorem pos_moved_trans {s s1 s2 : State} (h1 : pos_moved s s1) (h2 : pos_moved s1 s2) :
    pos_moved s s2 := by
  obtain ⟨e1, l1, u1⟩ := h1
  obtain ⟨e2, l2, u2⟩ := h2
  have hfile : s1.file = s.file := by rw [e1]
  refine ⟨?_, le_trans l1 l2, ?_⟩
  · rw [e2, e1]
  · rw [hfile] at u2
    exact le_trans u2 (max_le u1 (le_max_right _ _))

theorem safe_read_pos_moved (n : Nat) (s : State) :
    pos_moved s (safe_read n s).2 ∧
      (safe_read n s).2.pos = s.pos + (safe_read n s).1.length ∧
      (safe_read n s).1.length ≤ n ∧
      ((safe_read n s).1 ≠ [] → (safe_read n s).2.pos ≤ s.file.length) := by
  unfold safe_read
  have hlen : ((s.file.drop s.pos).take n).length ≤ s.file.length - s.pos := by
    simp only [List.length_take, List.length_drop]
    exact Nat.min_le_right _ _
  refine ⟨⟨rfl, Nat.le_add_right _ _, ?_⟩, rfl, ?_, ?_⟩
  · simp only [le_max_iff]
    omega
  · simp only [List.length_take]
    exact Nat.min_le_left _ _
  · intro hne
    have hpos : 0 < ((s.file.drop s.pos).take n).length := List.length_pos.2 hne
    simp only
    omega

theorem read_number_pos_moved (t : Nat) :
    ∀ (fuel pnt : Nat) (buf : List Nat) (s : State),
      pos_moved s (read_number t fuel pnt buf s).2.2 := by
  intro fuel
  induction fuel with
  | zero => intro pnt buf s; exact pos_moved_refl s
  | succ f ih =>
    intro pnt buf s
    have h1 := (safe_read_pos_moved 1 s).1
    rw [read_number]
    rcases hr : safe_read 1 s with ⟨data, s1⟩
    rw [hr] at h1
    match data with
    | [] => exact h1
    | [c] =>
      simp only
      split
      · exact h1
      · split
        · exact h1
        · exact pos_moved_trans h1 (ih _ _ _)
    | _ :: _ :: _ => exact h1

theorem replay_post_fail (cfg : Config) (s s0 : State) (h : pos_moved s s0) :
    replay_post cfg s (Outcome.ret (-1) s0) :=
  ⟨s0, h, Or.inr ⟨Or.inr rfl, Or.inl rfl⟩⟩

/-- The description `replay_post` holds of every call of `replay_log_record` on
an open journal. -/
theorem replay_log_record_post (cfg : Config) (env : Env) (s : State) (hfd : s.db_log_fd ≠ -1) :
    replay_post cfg s (replay_log_record cfg env s) := by
  have hfd' : ¬ s.db_log_fd = -1 := hfd
  unfold replay_log_record
  simp only [hfd', if_false]
  -- head cookie
  obtain ⟨c0, e0, -, b0⟩ := safe_read_pos_moved cfg.DB_LOG_RECORD_COOKIE_HEAD.length s
  generalize safe_read cfg.DB_LOG_RECORD_COOKIE_HEAD.length s = r0 at c0 e0 b0 ⊢
  by_cases h0 : r0.1.length = 0
  · rw [if_pos h0]
    exact ⟨r0.2, c0, Or.inr ⟨Or.inl rfl, Or.inl rfl⟩⟩
  rw [if_neg h0]
  by_cases hh : r0.1.length ≠ cfg.DB_LOG_RECORD_COOKIE_HEAD.length ∨
      memcmp r0.1 r0.1 r0.1.length ≠ 0
  · rw [if_pos hh]
    exact ⟨r0.2, c0, Or.inr ⟨Or.inr rfl, Or.inr rfl⟩⟩
  rw [if_neg hh]
  -- verb field
  have f1 := read_number_pos_moved 32 50 0 (List.map env.stack (List.range 50)) r0.2
  generalize read_number 32 50 0 (List.map env.stack (List.range 50)) r0.2 = r1 at f1 ⊢
  have c1 := pos_moved_trans c0 f1
  by_cases h1 : r1.1 = false
  · rw [if_pos h1]
    exact replay_post_fail cfg s _ c1
  rw [if_neg h1]
  by_cases h1p : (strtol16 r1.2.1).2 = 0
  · rw [if_pos h1p]
    exact replay_post_fail cfg s _ c1
  rw [if_neg h1p]
  -- uri length field
  have f2 := read_number_pos_moved 58 50 0 r1.2.1 r1.2.2
  generalize read_number 58 50 0 r1.2.1 r1.2.2 = r2 at f2 ⊢
  have c2 := pos_moved_trans c1 f2
  by_cases h2 : r2.1 = false
  · rw [if_pos h2]
    exact replay_post_fail cfg s _ c2
  rw [if_neg h2]
  generalize strtoul16 r2.2.1 = p2
  by_cases h2p : p2.2 = 0 ∨ p2.1 ≤ 0
  · rw [if_pos h2p]
    exact replay_post_fail cfg s _ c2
  rw [if_neg h2p]
  by_cases h2m : env.malloc_ok ((p2.1 + 1) % 18446744073709551616) = false
  · rw [if_pos h2m]
    exact c2
  rw [if_neg h2m]
  -- uri
  have f3 := (safe_read_pos_moved p2.1 r2.2.2).1
  generalize safe_read p2.1 r2.2.2 = r3 at f3 ⊢
  have c3 := pos_moved_trans c2 f3
  by_cases h3 : (r3.1.length : Int) ≠ ssize_of_size p2.1
  · rw [if_pos h3]
    exact replay_post_fail cfg s _ c3
  rw [if_neg h3]
  -- separator
  have f4 := (safe_read_pos_moved 1 r3.2).1
  generalize safe_read 1 r3.2 = r4 at f4 ⊢
  have c4 := pos_moved_trans c3 f4
  by_cases h4 : r4.1 ≠ [32]
  · rw [if_pos h4]
    exact replay_post_fail cfg s _ c4
  rw [if_neg h4]
  -- body length field
  have f5 := read_number_pos_moved 58 50 0 (r2.2.1.set 0 32) r4.2
  generalize read_number 58 50 0 (r2.2.1.set 0 32) r4.2 = r5 at f5 ⊢
  have c5 := pos_moved_trans c4 f5
  by_cases h5 : r5.1 = false
  · rw [if_pos h5]
    exact replay_post_fail cfg s _ c5
  rw [if_neg h5]
  generalize strtoul16 r5.2.1 = p5
  by_cases h5p : p5.2 = 0
  · rw [if_pos h5p]
    exact replay_post_fail cfg s _ c5
  rw [if_neg h5p]
  by_cases h5m : p5.1 > 0 ∧ env.malloc_ok ((p5.1 + 1) % 18446744073709551616) = false
  · rw [if_pos h5m]
    exact c5
  rw [if_neg h5m]
  -- body, then tail cookie
  have hle0 : r0.2.pos ≤ r5.2.2.pos :=
    le_trans f1.2.1 (le_trans f2.2.1 (le_trans f3.2.1 (le_trans f4.2.1 f5.2.1)))
  have hne0 : r0.1 ≠ [] := fun h => h0 (by rw [h]; rfl)
  have hb0 := b0 hne0
  have hpos0 : 0 < r0.1.length := List.length_pos.2 hne0
  have hh1 : r0.1.length = cfg.DB_LOG_RECORD_COOKIE_HEAD.length := by
    by_contra hc
    exact hh (Or.inl hc)
  have f6 := (safe_read_pos_moved p5.1 r5.2.2).1
  generalize safe_read p5.1 r5.2.2 = r6 at f6 ⊢
  have c6 := pos_moved_trans c5 f6
  obtain ⟨s6, hs6, c6', hle6⟩ : ∃ s6 : State,
      (if p5.1 > 0 then ((some r6.1 : Option (List Nat)), r6.2) else (none, r5.2.2)).2 = s6 ∧
        pos_moved s s6 ∧ r5.2.2.pos ≤ s6.pos := by
    by_cases hb : p5.1 > 0
    · exact ⟨r6.2, by rw [if_pos hb], c6, f6.2.1⟩
    · exact ⟨r5.2.2, by rw [if_neg hb], c5, le_refl _⟩
  rw [hs6]
  by_cases h6 : p5.1 > 0 ∧
      (((if p5.1 > 0 then ((some r6.1 : Option (List Nat)), r6.2) else (none, r5.2.2)).1.getD
        []).length : Int) ≠ ssize_of_size p5.1
  · rw [if_pos h6]
    exact replay_post_fail cfg s _ c6'
  rw [if_neg h6]
  obtain ⟨f7, e7, -, -⟩ := safe_read_pos_moved cfg.DB_LOG_RECORD_COOKIE_TAIL.length s6
  generalize safe_read cfg.DB_LOG_RECORD_COOKIE_TAIL.length s6 = r7 at f7 e7 ⊢
  have c7 := pos_moved_trans c6' f7
  by_cases h7 : r7.1.length ≠ cfg.DB_LOG_RECORD_COOKIE_TAIL.length ∨
      memcmp r7.1 r7.1 r7.1.length ≠ 0
  · rw [if_pos h7]
    exact replay_post_fail cfg s _ c7
  rw [if_neg h7]
  have ht1 : r7.1.length = cfg.DB_LOG_RECORD_COOKIE_TAIL.length := by
    by_contra hc
    exact h7 (Or.inl hc)
  have hu7 := c7.2.2
  refine ⟨r7.2, c7, Or.inl ⟨rfl, ⟨_, rfl, rfl⟩, ?_, ?_, ?_⟩⟩
  · omega
  · omega
  · simp only [le_max_iff] at hu7
    omega

theorem pos_moved_fields {s s0 : State} (h : pos_moved s s0) :
    s0.db_log_fd = s.db_log_fd ∧ s0.db_log_file_name = s.db_log_file_name ∧
      s0.log_buffer = s.log_buffer ∧ s0.file = s.file ∧ s0.trace = s.trace := by
  obtain ⟨e, -, -⟩ := h
  refine ⟨?_, ?_, ?_, ?_, ?_⟩ <;> rw [e]

/-- A call of `replay_log_record` that returns 0 on an open journal. -/
theorem replay_log_record_ret_zero (cfg : Config) (env : Env) (s s1 : State)
    (hfd : s.db_log_fd ≠ -1) (h : replay_log_record cfg env s = Outcome.ret 0 s1) :
    (∃ ev, ev.is_fake_request = true ∧ s1.trace = s.trace ++ [ev]) ∧
      s1.db_log_fd = s.db_log_fd ∧ s1.db_log_file_name = s.db_log_file_name ∧
      s1.log_buffer = s.log_buffer ∧ s1.file = s.file ∧
      s.pos + cfg.DB_LOG_RECORD_COOKIE_HEAD.length + cfg.DB_LOG_RECORD_COOKIE_TAIL.length
        ≤ s1.pos ∧ s.pos < s1.pos ∧ s1.pos ≤ s.file.length := by
  have hp := replay_log_record_post cfg env s hfd
  rw [h] at hp
  obtain ⟨s0, hm, hcase⟩ := hp
  obtain ⟨h1, h2, h3, h4, h5⟩ := pos_moved_fields hm
  rcases hcase with ⟨-, ⟨ev, hs1, hev⟩, b1, b2, b3⟩ | ⟨hr, -⟩
  · subst hs1
    exact ⟨⟨ev, hev, by simp [emit, h5]⟩, h1, h2, h3, h4, b1, b2, b3⟩
  · rcases hr with hr | hr <;> simp at hr

/-- A call of `replay_log_record` that returns another status than 0 on an open
journal: the status is 1 or -1 and the handler has not been called. -/
theorem replay_log_record_ret_other (cfg : Config) (env : Env) (s s1 : State) (r : Int)
    (hfd : s.db_log_fd ≠ -1) (h : replay_log_record cfg env s = Outcome.ret r s1)
    (hr : r ≠ 0) :
    (r = 1 ∨ r = -1) ∧ s1.trace = s.trace ∧ s1.db_log_fd = s.db_log_fd ∧
      s1.db_log_file_name = s.db_log_file_name ∧ s1.log_buffer = s.log_buffer := by
  have hp := replay_log_record_post cfg env s hfd
  rw [h] at hp
  obtain ⟨s0, hm, hcase⟩ := hp
  obtain ⟨h1, h2, h3, h4, h5⟩ := pos_moved_fields hm
  rcases hcase with ⟨h0, -⟩ | ⟨hrr, hs1⟩
  · exact absurd h0 hr
  · rcases hs1 with hs1 | hs1
    · subst hs1
      exact ⟨hrr, h5, h1, h2, h3⟩
    · subst hs1
      exact ⟨hrr, h5, h1, h2, h3⟩

/-- The loop of `replay_log` on an open journal ends within one iteration more
than there are bytes left in the file, and when it returns the count it prints
is the number of handler calls it made. -/
theorem replay_log_loop_terminates (cfg : Config) (env : Env) (n : Nat) :
    ∀ (s : State) (counter : Nat), s.db_log_fd ≠ -1 → s.file.length - s.pos ≤ n →
      ∃ out, (∀ fuel, n < fuel → replay_log_loop cfg env fuel counter s = some out) ∧
        (∀ r s1, out = Outcome.ret r s1 →
          ∃ evs, (∀ e ∈ evs, e.is_fake_request = true) ∧
            evs.length ≤ s.file.length - s.pos ∧ (r = 0 ∨ r = -1) ∧
            s1.trace = s.trace ++ evs ++
              (Event.printf_replayed (counter + evs.length)
                :: (if r < 0 then [Event.puts_corrupted] else []))) := by
  induction n with
  | zero =>
    intro s counter hfd hn
    rcases hrec : replay_log_record cfg env s with ⟨r, s1⟩ | ⟨st, s1⟩
    · by_cases hr : r = 0
      · subst hr
        obtain ⟨-, -, -, -, -, -, b2, b3⟩ := replay_log_record_ret_zero cfg env s s1 hfd hrec
        omega
      · obtain ⟨hrr, htr, -⟩ := replay_log_record_ret_other cfg env s s1 r hfd hrec hr
        by_cases hneg : r < 0
        · refine ⟨Outcome.ret (-1) (emit Event.puts_corrupted
            (emit (Event.printf_replayed counter) s1)), ?_, ?_⟩
          · intro fuel hfuel
            obtain ⟨f, rfl⟩ : ∃ f, fuel = f + 1 := ⟨fuel - 1, by omega⟩
            rw [replay_log_loop, hrec]
            simp [hr, hneg]
          · intro r2 s2 hout
            simp only [Outcome.ret.injEq] at hout
            obtain ⟨h1, h2⟩ := hout
            subst h1
            subst h2
            exact ⟨[], by simp, by simp, Or.inr rfl, by simp [emit, htr]⟩
        · refine ⟨Outcome.ret 0 (emit (Event.printf_replayed counter) s1), ?_, ?_⟩
          · intro fuel hfuel
            obtain ⟨f, rfl⟩ : ∃ f, fuel = f + 1 := ⟨fuel - 1, by omega⟩
            rw [replay_log_loop, hrec]
            simp [hr, hneg]
          · intro r2 s2 hout
            simp only [Outcome.ret.injEq] at hout
            obtain ⟨h1, h2⟩ := hout
            subst h1
            subst h2
            exact ⟨[], by simp, by simp, Or.inl rfl, by simp [emit, htr]⟩
    · refine ⟨Outcome.exit st s1, ?_, ?_⟩
      · intro fuel hfuel
        obtain ⟨f, rfl⟩ : ∃ f, fuel = f + 1 := ⟨fuel - 1, by omega⟩
        rw [replay_log_loop, hrec]
      · intro r2 s2 hout
        simp at hout
  | succ m ih =>
    intro s counter hfd hn
    rcases hrec : replay_log_record cfg env s with ⟨r, s1⟩ | ⟨st, s1⟩
    · by_cases hr : r = 0
      · subst hr
        obtain ⟨⟨ev, hev, htr⟩, h1fd, -, -, h1file, -, b2, b3⟩ :=
          replay_log_record_ret_zero cfg env s s1 hfd hrec
        obtain ⟨out, hout, hprops⟩ := ih s1 (counter + 1) (by rw [h1fd]; exact hfd)
          (by rw [h1file]; omega)
        refine ⟨out, ?_, ?_⟩
        · intro fuel hfuel
          obtain ⟨f, rfl⟩ : ∃ f, fuel = f + 1 := ⟨fuel - 1, by omega⟩
          rw [replay_log_loop, hrec]
          simp only [if_true]
          exact hout f (by omega)
        · intro r2 s2 ho
          obtain ⟨evs, hall, hlen, hr2, htr2⟩ := hprops r2 s2 ho
          refine ⟨ev :: evs, ?_, ?_, hr2, ?_⟩
          · intro e he
            rcases List.mem_cons.1 he with he | he
            · rw [he]; exact hev
            · exact hall e he
          · rw [h1file] at hlen
            simp only [List.length_cons]
            omega
          · rw [htr2, htr]
            simp [Nat.add_assoc, Nat.add_comm 1]
      · obtain ⟨hrr, htr, -⟩ := replay_log_record_ret_other cfg env s s1 r hfd hrec hr
        by_cases hneg : r < 0
        · refine ⟨Outcome.ret (-1) (emit Event.puts_corrupted
            (emit (Event.printf_replayed counter) s1)), ?_, ?_⟩
          · intro fuel hfuel
            obtain ⟨f, rfl⟩ : ∃ f, fuel = f + 1 := ⟨fuel - 1, by omega⟩
            rw [replay_log_loop, hrec]
            simp [hr, hneg]
          · intro r2 s2 hout
            simp only [Outcome.ret.injEq] at hout
            obtain ⟨h1, h2⟩ := hout
            subst h1
            subst h2
            exact ⟨[], by simp, by simp, Or.inr rfl, by simp [emit, htr]⟩
        · refine ⟨Outcome.ret 0 (emit (Event.printf_replayed counter) s1), ?_, ?_⟩
          · intro fuel hfuel
            obtain ⟨f, rfl⟩ : ∃ f, fuel = f + 1 := ⟨fuel - 1, by omega⟩
            rw [replay_log_loop, hrec]
            simp [hr, hneg]
          · intro r2 s2 hout
            simp only [Outcome.ret.injEq] at hout
            obtain ⟨h1, h2⟩ := hout
            subst h1
            subst h2
            exact ⟨[], by simp, by simp, Or.inl rfl, by simp [emit, htr]⟩
    · refine ⟨Outcome.exit st s1, ?_, ?_⟩
      · intro fuel hfuel
        obtain ⟨f, rfl⟩ : ∃ f, fuel = f + 1 := ⟨fuel - 1, by omega⟩
        rw [replay_log_loop, hrec]
      · intro r2 s2 hout
        simp at hout

/-! ## A number field is parsed up to its terminator -/

/-- C20.  For an open journal.  First part: a call of `replay_log_record` that
returns 0 leaves the file as it was and the offset greater than before, by at
least the lengths of the two cookies together, and not beyond the end of the
file.  Second part: `replay_log` ends, by a return or by `_exit`, as soon as it
may run one iteration more than there are bytes between the offset and the end
of the file; when it returns, the handler calls it made are as many as the
count it prints, and not more than those bytes; it returns 0 or -1. -/
theorem replay_log_progress (cfg : Config) (env : Env) (s : State) (hfd : s.db_log_fd ≠ -1) :
    (∀ s1, replay_log_record cfg env s = Outcome.ret 0 s1 →
      s1.file = s.file ∧ s.pos < s1.pos ∧
        s.pos + cfg.DB_LOG_RECORD_COOKIE_HEAD.length + cfg.DB_LOG_RECORD_COOKIE_TAIL.length
          ≤ s1.pos ∧ s1.pos ≤ s1.file.length) ∧
    (∃ out, (∀ fuel, s.file.length - s.pos < fuel → replay_log cfg env fuel s = some out) ∧
      (∀ r s1, out = Outcome.ret r s1 →
        ∃ evs, (∀ e ∈ evs, e.is_fake_request = true) ∧
          evs.length ≤ s.file.length - s.pos ∧ (r = 0 ∨ r = -1) ∧
          s1.trace = s.trace ++ [Event.puts_replaying] ++ evs ++
            (Event.printf_replayed evs.length
              :: (if r < 0 then [Event.puts_corrupted] else [])))) := by
  constructor
  · intro s1 h
    obtain ⟨-, -, -, -, hfile, b1, b2, b3⟩ := replay_log_record_ret_zero cfg env s s1 hfd h
    exact ⟨hfile, b2, b1, by rw [hfile]; exact b3⟩
  · obtain ⟨out, hout, hprops⟩ := replay_log_loop_terminates cfg env (s.file.length - s.pos)
      (emit Event.puts_replaying s) 0 hfd (le_refl _)
    refine ⟨out, ?_, ?_⟩
    · intro fuel hfuel
      unfold replay_log
      exact hout fuel hfuel
    · intro r s1 ho
      obtain ⟨evs, hall, hlen, hr, htr⟩ := hprops r s1 ho
      refine ⟨evs, hall, hlen, hr, ?_⟩
      rw [htr]
      simp [emit]

/-- Check of C20 on the journal that holds the record of (1, "/k1", "v1")
followed by the two bytes `PC`. -/
theorem replay_log_progress_witness :
    (∀ s1, replay_log_record sample_cfg sample_env
        (sample_state (record_bytes sample_cfg sample_env 1 [47, 107, 49] [118, 49] ++ [80, 67]))
          = Outcome.ret 0 s1 →
      s1.file = (sample_state
          (record_bytes sample_cfg sample_env 1 [47, 107, 49] [118, 49] ++ [80, 67])).file ∧
        (sample_state
          (record_bytes sample_cfg sample_env 1 [47, 107, 49] [118, 49] ++ [80, 67])).pos
          < s1.pos ∧
        (sample_state
          (record_bytes sample_cfg sample_env 1 [47, 107, 49] [118, 49] ++ [80, 67])).pos
          + sample_cfg.DB_LOG_RECORD_COOKIE_HEAD.length
          + sample_cfg.DB_LOG_RECORD_COOKIE_TAIL.length ≤ s1.pos ∧
        s1.pos ≤ s1.file.length) ∧
    (∃ out, (∀ fuel,
        (sample_state
          (record_bytes sample_cfg sample_env 1 [47, 107, 49] [118, 49] ++ [80, 67])).file.length
          - (sample_state
          (record_bytes sample_cfg sample_env 1 [47, 107, 49] [118, 49] ++ [80, 67])).pos < fuel →
        replay_log sample_cfg sample_env fuel
          (sample_state (record_bytes sample_cfg sample_env 1 [47, 107, 49] [118, 49] ++ [80, 67]))
            = some out) ∧
      (∀ r s1, out = Outcome.ret r s1 →
        ∃ evs, (∀ e ∈ evs, e.is_fake_request = true) ∧
          evs.length ≤ (sample_state
            (record_bytes sample_cfg sample_env 1 [47, 107, 49] [118, 49]
              ++ [80, 67])).file.length
            - (sample_state
            (record_bytes sample_cfg sample_env 1 [47, 107, 49] [118, 49] ++ [80, 67])).pos ∧
          (r = 0 ∨ r = -1) ∧
          s1.trace = (sample_state
            (record_bytes sample_cfg sample_env 1 [47, 107, 49] [118, 49] ++ [80, 67])).trace
            ++ [Event.puts_replaying] ++ evs ++
            (Event.printf_replayed evs.length
              :: (if r < 0 then [Event.puts_corrupted] else [])))) :=
  replay_log_progress sample_cfg sample_env
    (sample_state (record_bytes sample_cfg sample_env 1 [47, 107, 49] [118, 49] ++ [80, 67]))
    (by decide)

/-! ## The invariant of the journal record -/

theorem flush_db_log_post (cfg : Config) (sync : Bool) (s s1 : State) (r : Int)
    (h : flush_db_log cfg sync s = some (r, s1)) :
    s1.db_log_fd = s.db_log_fd ∧ s1.db_log_file_name = s.db_log_file_name ∧
      (s.log_buffer ≠ none → s1.log_buffer ≠ none) := by
  cases hbuf : s.log_buffer with
  | none =>
    unfold flush_db_log at h
    by_cases hfd : s.db_log_fd = -1
    · simp only [hfd, if_true, Option.some.injEq, Prod.mk.injEq] at h
      obtain ⟨-, h2⟩ := h
      subst h2
      exact ⟨rfl, rfl, fun hc => absurd rfl hc⟩
    · simp [hfd, hbuf] at h
  | some buf =>
    obtain ⟨r2, s2, hfl, h1, h2, b, hb⟩ := flush_db_log_returns cfg sync s buf hbuf
    rw [hfl] at h
    simp only [Option.some.injEq, Prod.mk.injEq] at h
    obtain ⟨-, h3⟩ := h
    subst h3
    exact ⟨h1, h2, fun _ => by rw [hb]; simp⟩

theorem close_db_log_post (cfg : Config) (s s1 : State) (r : Int)
    (h : close_db_log cfg s = some (r, s1)) : s1.db_log_fd = -1 := by
  unfold close_db_log at h
  by_cases hfd : s.db_log_fd = -1
  · simp only [hfd, if_true, Option.some.injEq, Prod.mk.injEq] at h
    obtain ⟨-, h2⟩ := h
    subst h2
    exact hfd
  · simp only [hfd, if_false] at h
    cases hfl : flush_db_log cfg true s with
    | none => simp [hfl] at h
    | some p =>
      simp only [hfl, Option.some.injEq, Prod.mk.injEq] at h
      obtain ⟨-, h2⟩ := h
      subst h2
      rfl

theorem free_db_log_post (cfg : Config) (s s1 : State) (h : free_db_log cfg s = some s1) :
    s1.db_log_fd = -1 := by
  unfold free_db_log at h
  cases hcl : close_db_log cfg s with
  | none => simp [hcl] at h
  | some p =>
    obtain ⟨r, t⟩ := p
    simp only [hcl, Option.some.injEq] at h
    subst h
    exact close_db_log_post cfg s t r hcl

theorem open_db_log_post (cfg : Config) (env : Env) (s s1 : State) (r : Int)
    (h : open_db_log cfg env s = some (r, s1)) : handle_invariant s1 := by
  unfold open_db_log at h
  cases hname : s.db_log_file_name with
  | none =>
    simp only [hname, Option.some.injEq, Prod.mk.injEq] at h
    obtain ⟨-, h2⟩ := h
    subst h2
    intro hc
    exact absurd rfl hc
  | some name =>
    simp only [hname] at h
    by_cases hop : env.open_result = -1
    · simp only [hop, if_true, Option.map_eq_some', Prod.mk.injEq] at h
      obtain ⟨t, ht, -, h2⟩ := h
      subst h2
      intro hc
      exact absurd (free_db_log_post cfg _ _ ht) hc
    · simp only [hop, if_false] at h
      by_cases hev : env.evbuffer_new_ok = false
      · simp only [hev, if_true, Option.map_eq_some', Prod.mk.injEq] at h
        obtain ⟨t, ht, -, h2⟩ := h
        subst h2
        intro hc
        exact absurd (free_db_log_post cfg _ _ ht) hc
      · rw [if_neg hev] at h
        simp only [Option.some.injEq, Prod.mk.injEq] at h
        obtain ⟨-, h2⟩ := h
        rw [← h2]
        intro _
        simp [emit, hname]

theorem add_to_db_log_post (cfg : Config) (env : Env) (verb : Int) (uri ib : List Nat)
    (s s1 : State) (r : Int) (h : add_to_db_log cfg env verb uri ib s = some (r, s1)) :
    s1.db_log_fd = s.db_log_fd ∧ s1.db_log_file_name = s.db_log_file_name ∧
      (s.log_buffer ≠ none → s1.log_buffer ≠ none) := by
  unfold add_to_db_log at h
  by_cases hfd : s.db_log_fd = -1
  · simp only [hfd, if_true, Option.some.injEq, Prod.mk.injEq] at h
    obtain ⟨-, h2⟩ := h
    subst h2
    exact ⟨rfl, rfl, fun hc => hc⟩
  · simp only [hfd, if_false] at h
    by_cases hbig : strlen uri > cfg.DB_LOG_MAX_URI_LEN ∨ ib.length > cfg.DB_LOG_MAX_BODY_LEN
    · simp only [hbig, if_true, Option.some.injEq, Prod.mk.injEq] at h
      obtain ⟨-, h2⟩ := h
      subst h2
      exact ⟨rfl, rfl, fun hc => hc⟩
    · simp only [hbig, if_false] at h
      cases hbuf : s.log_buffer with
      | none => simp [hbuf] at h
      | some buf =>
        simp only [hbuf] at h
        unfold add_to_db_log_policy at h
        simp only [] at h
        split at h
        · cases hfl : flush_db_log cfg true
              { s with log_buffer := some (buf ++ record_bytes cfg env verb uri ib) } with
          | none => simp [hfl] at h
          | some p =>
            obtain ⟨r2, t⟩ := p
            simp only [hfl, Option.some.injEq, Prod.mk.injEq] at h
            obtain ⟨-, h2⟩ := h
            subst h2
            obtain ⟨h1, h2, h3⟩ := flush_db_log_post cfg true _ _ _ hfl
            exact ⟨h1, h2, fun _ => h3 (by simp)⟩
        · split at h
          · cases hfl : flush_db_log cfg false
                { s with log_buffer := some (buf ++ record_bytes cfg env verb uri ib) } with
            | none => simp [hfl] at h
            | some p =>
              obtain ⟨r2, t⟩ := p
              simp only [hfl, Option.some.injEq, Prod.mk.injEq] at h
              obtain ⟨-, h2⟩ := h
              subst h2
              obtain ⟨h1, h2, h3⟩ := flush_db_log_post cfg false _ _ _ hfl
              exact ⟨h1, h2, fun _ => h3 (by simp)⟩
          · simp only [Option.some.injEq, Prod.mk.injEq] at h
            obtain ⟨-, h2⟩ := h
            subst h2
            exact ⟨rfl, rfl, fun _ => by simp⟩

theorem replay_log_record_fields (cfg : Config) (env : Env) (s s1 : State) (r : Int)
    (h : replay_log_record cfg env s = Outcome.ret r s1) :
    s1.db_log_fd = s.db_log_fd ∧ s1.db_log_file_name = s.db_log_file_name ∧
      s1.log_buffer = s.log_buffer := by
  by_cases hfd : s.db_log_fd = -1
  · unfold replay_log_record at h
    simp only [hfd, if_true, Outcome.ret.injEq] at h
    obtain ⟨-, h2⟩ := h
    subst h2
    exact ⟨rfl, rfl, rfl⟩
  · by_cases hr : r = 0
    · subst hr
      obtain ⟨-, h1, h2, h3, -⟩ := replay_log_record_ret_zero cfg env s s1 hfd h
      exact ⟨h1, h2, h3⟩
    · obtain ⟨-, -, h1, h2, h3⟩ := replay_log_record_ret_other cfg env s s1 r hfd h hr
      exact ⟨h1, h2, h3⟩

theorem step_handle_invariant (cfg : Config) (s s1 : State) (hs : Step cfg s s1)
    (hinv : handle_invariant s) : handle_invariant s1 := by
  cases hs with
  | configure _ path hfd =>
    intro hc
    exact absurd hfd hc
  | open_db_log env _ _ r h => exact open_db_log_post cfg env s s1 r h
  | close_db_log _ _ r h =>
    intro hc
    exact absurd (close_db_log_post cfg s s1 r h) hc
  | free_db_log _ _ h =>
    intro hc
    exact absurd (free_db_log_post cfg s s1 h) hc
  | add_to_db_log env verb uri body _ _ r h =>
    obtain ⟨h1, h2, h3⟩ := add_to_db_log_post cfg env verb uri body s s1 r h
    intro hc
    rw [h1] at hc
    obtain ⟨i1, i2⟩ := hinv hc
    exact ⟨by rw [h2]; exact i1, h3 i2⟩
  | flush_db_log sync _ _ r h =>
    obtain ⟨h1, h2, h3⟩ := flush_db_log_post cfg sync s s1 r h
    intro hc
    rw [h1] at hc
    obtain ⟨i1, i2⟩ := hinv hc
    exact ⟨by rw [h2]; exact i1, h3 i2⟩
  | replay_log_record env _ _ r h =>
    obtain ⟨h1, h2, h3⟩ := replay_log_record_fields cfg env s s1 r h
    intro hc
    rw [h1] at hc
    obtain ⟨i1, i2⟩ := hinv hc
    exact ⟨by rw [h2]; exact i1, by rw [h3]; exact i2⟩

/-- C19.  Handle-validity invariant: in every state reached from `init_db_log`
by any sequence of calls of `open_db_log`, `close_db_log`, `free_db_log`,
`add_to_db_log`, `flush_db_log` and `replay_log_record` that return, with the
path set by the configuration only while the descriptor is -1 and with the
environment free to decide differently at every call, a valid descriptor comes
with a file name and an allocated staging buffer.  So `add_to_db_log`, with any
arguments, and `flush_db_log`, with either flag, called in such a state never
dereference an absent staging buffer. -/
theorem reachable_handle_invariant (cfg : Config) (s : State) (h : Reachable cfg s) :
    handle_invariant s ∧
      (∀ env verb uri ib, add_to_db_log cfg env verb uri ib s ≠ none) ∧
      (∀ sync, flush_db_log cfg sync s ≠ none) := by
  have hinv : handle_invariant s := by
    induction h with
    | init s0 =>
      intro hc
      exact absurd rfl hc
    | step s s1 _ hstep ih => exact step_handle_invariant cfg s s1 hstep ih
  have hflush : ∀ (t : State) (sync : Bool), (t.db_log_fd ≠ -1 → t.log_buffer ≠ none) →
      flush_db_log cfg sync t ≠ none := by
    intro t sync ht
    by_cases hfd : t.db_log_fd = -1
    · unfold flush_db_log
      simp [hfd]
    · cases hb : t.log_buffer with
      | none => exact absurd hb (ht hfd)
      | some buf =>
        obtain ⟨r, t1, hfl, -⟩ := flush_db_log_returns cfg sync t buf hb
        rw [hfl]
        simp
  refine ⟨hinv, ?_, fun sync => hflush s sync (fun hc => (hinv hc).2)⟩
  intro env verb uri ib
  unfold add_to_db_log
  by_cases hfd : s.db_log_fd = -1
  · simp [hfd]
  · simp only [hfd, if_false]
    split
    · simp
    · cases hb : s.log_buffer with
      | none => exact absurd hb (hinv hfd).2
      | some buf =>
        simp only []
        unfold add_to_db_log_policy
        simp only []
        split
        · have := hflush { s with log_buffer := some (buf ++ record_bytes cfg env verb uri ib) }
            true (fun _ => by simp)
          cases hfl : flush_db_log cfg true
              { s with log_buffer := some (buf ++ record_bytes cfg env verb uri ib) } with
          | none => exact absurd hfl this
          | some p => simp
        · split
          · have := hflush { s with log_buffer := some (buf ++ record_bytes cfg env verb uri ib) }
              false (fun _ => by simp)
            cases hfl : flush_db_log cfg false
                { s with log_buffer := some (buf ++ record_bytes cfg env verb uri ib) } with
            | none => exact absurd hfl this
            | some p => simp
          · simp

/-- Check of C19 on a run: `init_db_log`, the path `j` is configured,
`open_db_log` returns 0 with descriptor 3, and `add_to_db_log` stages the record
of (1, "/k1", "v1").  The state after these calls is reachable, its descriptor
is valid, and the invariant and its two consequences hold of it. -/
theorem reachable_handle_invariant_witness :
    Reachable sample_cfg
        { sample_state [] with
          db_log_file_name := some [106]
          log_buffer := some
            [80, 67, 62, 49, 32, 51, 58, 47, 107, 49, 32, 50, 58, 118, 49, 60, 80, 67]
          trace := [Event.open_call [106] 3] } ∧
    ({ sample_state [] with
        db_log_file_name := some [106]
        log_buffer := some
          [80, 67, 62, 49, 32, 51, 58, 47, 107, 49, 32, 50, 58, 118, 49, 60, 80, 67]
        trace := [Event.open_call [106] 3] } : State).db_log_fd ≠ -1 ∧
    (handle_invariant
        { sample_state [] with
          db_log_file_name := some [106]
          log_buffer := some
            [80, 67, 62, 49, 32, 51, 58, 47, 107, 49, 32, 50, 58, 118, 49, 60, 80, 67]
          trace := [Event.open_call [106] 3] } ∧
      (∀ env verb uri ib, add_to_db_log sample_cfg env verb uri ib
        { sample_state [] with
          db_log_file_name := some [106]
          log_buffer := some
            [80, 67, 62, 49, 32, 51, 58, 47, 107, 49, 32, 50, 58, 118, 49, 60, 80, 67]
          trace := [Event.open_call [106] 3] } ≠ none) ∧
      (∀ sync, flush_db_log sample_cfg sync
        { sample_state [] with
          db_log_file_name := some [106]
          log_buffer := some
            [80, 67, 62, 49, 32, 51, 58, 47, 107, 49, 32, 50, 58, 118, 49, 60, 80, 67]
          trace := [Event.open_call [106] 3] } ≠ none)) :=
  have hreach : Reachable sample_cfg
      { sample_state [] with
        db_log_file_name := some [106]
        log_buffer := some
          [80, 67, 62, 49, 32, 51, 58, 47, 107, 49, 32, 50, 58, 118, 49, 60, 80, 67]
        trace := [Event.open_call [106] 3] } :=
    Reachable.step
      { sample_state [] with
        db_log_file_name := some [106]
        trace := [Event.open_call [106] 3] }
      _
      (Reachable.step
        { (init_db_log sample_cfg (sample_state [])).2 with db_log_file_name := some [106] }
        _
        (Reachable.step (init_db_log sample_cfg (sample_state [])).2 _
          (Reachable.init (sample_state []))
          (Step.configure (init_db_log sample_cfg (sample_state [])).2 [106] rfl))
        (Step.open_db_log sample_env _ _ 0 (by decide)))
      (Step.add_to_db_log sample_env 1 [47, 107, 49] [118, 49] _ _ 0 (by decide))
  ⟨hreach, by decide, reachable_handle_invariant sample_cfg _ hreach⟩

/-- The invariant is one of the states between two calls, not of the states
inside a call.  After `init_db_log` the path `j` is configured and `open_db_log`
is called; `open` returns descriptor 3 and `evbuffer_new` returns NULL.  First
part: `open_db_log` does not return, so no state between calls comes of it.
Second part: the state inside `open_db_log`, between lines 44 and 45, when it
calls `free_db_log`, has a valid descriptor and no staging buffer.  Third part:
from that state `free_db_log` calls `close_db_log`, which calls
`flush_db_log(1)`, and the flush asks for the length of the staging buffer that
is not there. -/
theorem open_db_log_flushes_absent_buffer :
    open_db_log sample_cfg { sample_env with evbuffer_new_ok := false }
        { (init_db_log sample_cfg (sample_state [])).2 with db_log_file_name := some [106] }
      = none ∧
    ¬ handle_invariant
        { (init_db_log sample_cfg (sample_state [])).2 with
          db_log_file_name := some [106]
          db_log_fd := 3
          log_buffer := none
          trace := [Event.open_call [106] 3] } ∧
    free_db_log sample_cfg
        { (init_db_log sample_cfg (sample_state [])).2 with
          db_log_file_name := some [106]
          db_log_fd := 3
          log_buffer := none
          trace := [Event.open_call [106] 3] } = none ∧
    close_db_log sample_cfg
        { (init_db_log sample_cfg (sample_state [])).2 with
          db_log_file_name := some [106]
          db_log_fd := 3
          log_buffer := none
          trace := [Event.open_call [106] 3] } = none ∧
    flush_db_log sample_cfg true
        { (init_db_log sample_cfg (sample_state [])).2 with
          db_log_file_name := some [106]
          db_log_fd := 3
          log_buffer := none
          trace := [Event.open_call [106] 3] } = none := by
  refine ⟨by decide, ?_, by decide, by decide, by decide⟩
  unfold handle_invariant
  decide

end Pincaster
